import Mathlib

/-!
# Databricks source and tools of genai-toolbox: a shallow embedding

The Go packages `internal/sources/databricks`, `internal/tools/databrickssql`
and `internal/tools/databricksexecutesql` are embedded as pure Lean functions.

* A Go `string` is a `List Char`.  The only string operations the packages
  use are `strings.Split` and `strings.Replace` with the one-byte ASCII
  tokens `/`, `?` and the single quote, which cut a string at the same
  places whether it is read as bytes or as code points.
* A Go `error` is its message.
* The warehouse client is the function that `ExecuteAndWait` computes; every
  request handed to it is recorded in the `sent` list of the outcome.
-/

namespace Databricks

/-- Go `string`. -/
abbrev GoString := List Char

/-- The single quote character. -/
def quoteChar : Char := Char.ofNat 39

/-- Go `strings.Split(s, sep)` for a one-character separator: the segments
between the separators, `count sep + 1` of them (one empty segment for the
empty string). -/
def Split : GoString → Char → List GoString
  | [], _ => [[]]
  | c :: cs, sep =>
    if c = sep then [] :: Split cs sep
    else
      match Split cs sep with
      | [] => [[c]]
      | seg :: segs => (c :: seg) :: segs

/-- Go `strings.Replace(s, old, new, n)` for a one-character `old`: the first
`n` occurrences of `old` are replaced by `new`, all of them when `n < 0`. -/
def Replace : GoString → Char → GoString → Int → GoString
  | [], _, _, _ => []
  | c :: cs, old, new, n =>
    if n = 0 then c :: cs
    else if c = old then new ++ Replace cs old new (n - 1)
    else c :: Replace cs old new n

/-- The loop `for _, part := range ...  if part != "" then append`, shared by
`ExtractWarehouseID`, `Config.Initialize` and the free-form `Tool.Invoke`. -/
def nonEmptyParts (segments : List GoString) : List GoString :=
  segments.foldl (fun parts part => if part ≠ [] then parts ++ [part] else parts) []

/-- Go `parts[len(parts)-1]`, read only under the guard `len(parts) > 0`. -/
def lastPart (parts : List GoString) : GoString :=
  parts.getLastD []

/-- Function `ExtractWarehouseID` of `utils.go`. -/
def ExtractWarehouseID (httpPath : GoString) : GoString :=
  if httpPath = [] then []
  else if httpPath.length > 0 ∧ httpPath.head? = some '/' then
    let parts := nonEmptyParts (Split httpPath '/')
    if parts.length > 0 then lastPart parts
    else []
  else httpPath

/-- A Go `interface{}` value as it reaches the binding loop.  The payload of
`float64` and of `other` (any further dynamic type) is the text that
`fmt.Sprintf("%v", v)` prints for the value. -/
inductive Value where
  | str (s : GoString)
  | int (i : Int)
  | int64 (i : Int)
  | float64 (text : GoString)
  | bool (b : Bool)
  | nil
  | other (text : GoString)
  deriving DecidableEq

/-- Decimal text of an integer, as `%v` prints an `int` or `int64`. -/
def fmtInt (i : Int) : GoString :=
  if i < 0 then '-' :: Nat.toDigits 10 i.natAbs else Nat.toDigits 10 i.natAbs

/-- Go `fmt.Sprintf("%v", v)`. -/
def fmtV : Value → GoString
  | .str s => s
  | .int i => fmtInt i
  | .int64 i => fmtInt i
  | .float64 text => text
  | .bool b => if b then "true".toList else "false".toList
  | .nil => "<nil>".toList
  | .other text => text

/-- Request type `dbsql.ExecuteStatementRequest`, with the fields the source sets. -/
structure ExecuteStatementRequest where
  WarehouseId : GoString
  Statement : GoString
  Catalog : GoString
  Schema : GoString
  deriving DecidableEq

/-- Column description `dbsql.ColumnInfo`. -/
structure ColumnInfo where
  Name : GoString
  deriving DecidableEq

/-- Schema `dbsql.ResultSchema`. -/
structure ResultSchema where
  Columns : List ColumnInfo
  deriving DecidableEq

/-- Manifest `dbsql.ResultManifest`; `none` is a nil `Schema` pointer. -/
structure ResultManifest where
  Schema : Option ResultSchema
  deriving DecidableEq

/-- Result `dbsql.ResultData`; `none` is a nil `DataArray` slice. -/
structure ResultData where
  DataArray : Option (List (List Value))
  deriving DecidableEq

/-- Response of `ExecuteAndWait`; `none` is a nil pointer. -/
structure StatementResponse where
  Manifest : Option ResultManifest
  Result : Option ResultData
  deriving DecidableEq

/-- The warehouse client, reduced to what `StatementExecution.ExecuteAndWait`
answers to a request: an error message or a response. -/
abbrev WorkspaceClient := ExecuteStatementRequest → Except GoString StatementResponse

/-- A Go `map[string]interface{}`: the keys in insertion order, each once. -/
abbrev RowMap := List (GoString × Value)

/-- Map assignment `m[k] = v`. -/
def RowMap.set : RowMap → GoString → Value → RowMap
  | [], k, v => [(k, v)]
  | (k0, v0) :: rest, k, v =>
    if k0 = k then (k, v) :: rest else (k0, v0) :: RowMap.set rest k v

/-- Map read `m[k]`, `none` for a key that is not present. -/
def RowMap.get : RowMap → GoString → Option Value
  | [], _ => none
  | (k0, v0) :: rest, k => if k0 = k then some v0 else RowMap.get rest k

/-- What a call did: the requests handed to the warehouse client, in order,
and the returned pair (value or error message). -/
structure Outcome (α : Type) where
  sent : List ExecuteStatementRequest
  result : Except GoString α

/-- Type `Config` of `databricks.go`. -/
structure Config where
  Name : GoString
  Kind : GoString
  Host : GoString
  Token : GoString
  HttpPath : GoString
  Catalog : GoString
  Schema : GoString
  deriving DecidableEq

/-- Type `Source` of `databricks.go`. -/
structure Source where
  Name : GoString
  Kind : GoString
  Client : WorkspaceClient
  HttpPath : GoString
  Catalog : GoString
  Schema : GoString

/-- Constant `SourceKind`. -/
def SourceKind : GoString := "databricks".toList

/-- The block `if len(httpPath) > 0 && httpPath[0] == '/' ...` that
`Config.Initialize` (databricks.go, lines 35-47) and the free-form
`Tool.Invoke` (databricksexecutesql.go, lines 131-142) both run on their
path variable: the variable is overwritten only when `parts` is non-empty. -/
def cleanHttpPath (httpPath : GoString) : GoString :=
  if httpPath.length > 0 ∧ httpPath.head? = some '/' then
    let parts := nonEmptyParts (Split httpPath '/')
    if parts.length > 0 then lastPart parts
    else httpPath
  else httpPath

/-- Function `initDatabricksClient`; `newWorkspaceClient` stands for the SDK
constructor `databricks.NewWorkspaceClient` applied to host and token. -/
def initDatabricksClient (newWorkspaceClient : GoString → GoString → Except GoString WorkspaceClient)
    (host token : GoString) : Except GoString WorkspaceClient :=
  match newWorkspaceClient host token with
  | .error err => .error ("databricks.NewWorkspaceClient: ".toList ++ err)
  | .ok client => .ok client

/-- Method `Config.Initialize` of `databricks.go`. -/
def Config.Initialize (newWorkspaceClient : GoString → GoString → Except GoString WorkspaceClient)
    (r : Config) : Except GoString Source :=
  let httpPath := cleanHttpPath r.HttpPath
  match initDatabricksClient newWorkspaceClient r.Host r.Token with
  | .error err => .error ("unable to create databricks client: ".toList ++ err)
  | .ok client =>
    .ok { Name := r.Name, Kind := SourceKind, Client := client, HttpPath := httpPath,
          Catalog := r.Catalog, Schema := r.Schema }

/-- Method `Source.GetHttpPath`. -/
def Source.GetHttpPath (s : Source) : GoString := s.HttpPath

/-- Method `Source.GetCatalog`. -/
def Source.GetCatalog (s : Source) : GoString := s.Catalog

/-- Method `Source.GetSchema`. -/
def Source.GetSchema (s : Source) : GoString := s.Schema

/-- Method `Source.DatabricksClient`. -/
def Source.DatabricksClient (s : Source) : WorkspaceClient := s.Client

/-- One pass of the binding loop of `Source.ExecuteSQL` (the `switch` on the
dynamic type of `param`). -/
def bindParam (statement : GoString) (param : Value) : GoString :=
  match param with
  | .str v =>
    let escapedVal := Replace v quoteChar [quoteChar, quoteChar] (-1)
    Replace statement '?' (quoteChar :: escapedVal ++ [quoteChar]) 1
  | .int i => Replace statement '?' (fmtV (.int i)) 1
  | .int64 i => Replace statement '?' (fmtV (.int64 i)) 1
  | .float64 text => Replace statement '?' (fmtV (.float64 text)) 1
  | .bool b => Replace statement '?' (fmtV (.bool b)) 1
  | .nil => Replace statement '?' "NULL".toList 1
  | .other text => Replace statement '?' (fmtV (.other text)) 1

/-- The inner loop of the row conversion: `rowMap[col.Name] = row[i]` for
every column index `i` with `i < len(row)`. -/
def buildRowMap (columns : List ColumnInfo) (row : List Value) : RowMap :=
  columns.enum.foldl
    (fun rowMap ic => match row.get? ic.1 with
      | some cell => rowMap.set ic.2.Name cell
      | none => rowMap)
    []

/-- The conversion of a response to the standard map format (lines 154-166). -/
def convertRows (resp : StatementResponse) : List RowMap :=
  match resp.Result, resp.Manifest with
  | some result, some manifest =>
    match result.DataArray, manifest.Schema with
    | some dataArray, some schema =>
      dataArray.foldl (fun rows row => rows ++ [buildRowMap schema.Columns row]) []
    | _, _ => []
  | _, _ => []

/-- Method `Source.ExecuteSQL`.  A nil and an empty `params` slice both have
length 0 and are the empty list. -/
def Source.ExecuteSQL (s : Source) (statement : GoString) (params : List Value) :
    Outcome (List RowMap) :=
  let warehouseID := s.HttpPath
  if warehouseID = [] then
    { sent := [], result := .error "warehouse ID cannot be empty".toList }
  else
    let req : ExecuteStatementRequest :=
      { WarehouseId := warehouseID, Statement := statement, Catalog := [], Schema := [] }
    let req := if s.Catalog ≠ [] then { req with Catalog := s.Catalog } else req
    let req := if s.Schema ≠ [] then { req with Schema := s.Schema } else req
    let req :=
      if params.length > 0 then { req with Statement := params.foldl bindParam statement }
      else req
    match s.Client req with
    | .error err => { sent := [req], result := .error ("failed to execute SQL: ".toList ++ err) }
    | .ok resp => { sent := [req], result := .ok (convertRows resp) }

/-- The capability interface `compatibleSource` of both tool packages: what
the four accessors of a source return. -/
structure CompatibleSource where
  DatabricksClient : WorkspaceClient
  GetHttpPath : GoString
  GetCatalog : GoString
  GetSchema : GoString

/-- A value of the interface `sources.Source` held in the sources map: its
kind, and the result of the type assertion `rawS.(compatibleSource)`
(`none` when the dynamic type lacks one of the four accessors). -/
structure AnySource where
  SourceKind : GoString
  compatible : Option CompatibleSource

/-- A `*databricks.Source` as a `sources.Source` interface value. -/
def Source.toAnySource (s : Source) : AnySource :=
  { SourceKind := SourceKind,
    compatible := some { DatabricksClient := s.DatabricksClient, GetHttpPath := s.GetHttpPath,
                         GetCatalog := s.GetCatalog, GetSchema := s.GetSchema } }

/-- Array `compatibleSources` of both tool packages. -/
def compatibleSources : List GoString := [SourceKind]

/-- Verb `%q` applied to a string array: the quoted elements, blank-separated,
in square brackets.  `quote` is `%q` on one string (Go `strconv.Quote`). -/
def fmtQArray (quote : GoString → GoString) (xs : List GoString) : GoString :=
  '[' :: (" ".toList.intercalate (xs.map quote)) ++ [']']

end Databricks

namespace Databrickssql

open Databricks

/-- Constant `ToolKind` of `databrickssql.go`. -/
def ToolKind : GoString := "databricks-sql".toList

/-- Type `Config` of `databrickssql.go`; the field `Parameters` belongs to
package `tools` and takes no part in `Initialize` beyond being copied. -/
structure Config where
  Name : GoString
  Kind : GoString
  Source : GoString
  Description : GoString
  Statement : GoString
  AuthRequired : List GoString

/-- Type `Tool` of `databrickssql.go`, without the parameter list and the
two manifests, which only the accessors read. -/
structure Tool where
  Name : GoString
  Kind : GoString
  AuthRequired : List GoString
  Client : WorkspaceClient
  HttpPath : GoString
  Catalog : GoString
  Schema : GoString
  Statement : GoString

/-- Method `Config.Initialize` of `databrickssql.go`; `srcs` is the map read
`srcs[cfg.Source]` and `quote` is the verb `%q` on a string. -/
def Config.Initialize (quote : GoString → GoString) (cfg : Config)
    (srcs : GoString → Option AnySource) : Except GoString Tool :=
  match srcs cfg.Source with
  | none => .error ("no source named ".toList ++ quote cfg.Source ++ " configured".toList)
  | some rawS =>
    match rawS.compatible with
    | none =>
      .error ("invalid source for ".toList ++ quote ToolKind
        ++ " tool: source kind must be one of ".toList ++ fmtQArray quote compatibleSources)
    | some s =>
      .ok { Name := cfg.Name, Kind := ToolKind, AuthRequired := cfg.AuthRequired,
            Client := s.DatabricksClient, HttpPath := s.GetHttpPath, Catalog := s.GetCatalog,
            Schema := s.GetSchema, Statement := cfg.Statement }

/-- Method `Tool.Invoke` of `databrickssql.go`; `sliceParams` is the value of
`params.AsSlice()`. -/
def Tool.Invoke (t : Tool) (sliceParams : List Value) : Outcome (List RowMap) :=
  let source : Source :=
    { Name := [], Kind := [], Client := t.Client, HttpPath := t.HttpPath,
      Catalog := t.Catalog, Schema := t.Schema }
  let out := source.ExecuteSQL t.Statement sliceParams
  match out.result with
  | .error err => { sent := out.sent, result := .error ("failed to execute SQL: ".toList ++ err) }
  | .ok rows => { sent := out.sent, result := .ok rows }

end Databrickssql

namespace Databricksexecutesql

open Databricks

/-- Constant `ToolKind` of `databricksexecutesql.go`. -/
def ToolKind : GoString := "databricks-execute-sql".toList

/-- Type `Config` of `databricksexecutesql.go`. -/
structure Config where
  Name : GoString
  Kind : GoString
  Source : GoString
  Description : GoString
  AuthRequired : List GoString

/-- Type `Tool` of `databricksexecutesql.go`, without the parameter list and
the two manifests, which only the accessors read. -/
structure Tool where
  Name : GoString
  Kind : GoString
  AuthRequired : List GoString
  Client : WorkspaceClient
  HttpPath : GoString
  Catalog : GoString
  Schema : GoString

/-- Method `Config.Initialize` of `databricksexecutesql.go`. -/
def Config.Initialize (quote : GoString → GoString) (cfg : Config)
    (srcs : GoString → Option AnySource) : Except GoString Tool :=
  match srcs cfg.Source with
  | none => .error ("no source named ".toList ++ quote cfg.Source ++ " configured".toList)
  | some rawS =>
    match rawS.compatible with
    | none =>
      .error ("invalid source for ".toList ++ quote ToolKind
        ++ " tool: source kind must be one of ".toList ++ fmtQArray quote compatibleSources)
    | some s =>
      let httpPath := s.GetHttpPath
      if httpPath = [] then
        .error ("warehouse ID is empty for source ".toList ++ quote cfg.Source)
      else
        .ok { Name := cfg.Name, Kind := ToolKind, AuthRequired := cfg.AuthRequired,
              Client := s.DatabricksClient, HttpPath := httpPath, Catalog := s.GetCatalog,
              Schema := s.GetSchema }

/-- Method `Tool.Invoke` of `databricksexecutesql.go`; `sliceParams` is the
value of `params.AsSlice()`.  The result is `none` when the index expression
`sliceParams[0]` panics; the two `fmt.Printf` log lines are not modelled. -/
def Tool.Invoke (t : Tool) (sliceParams : List Value) : Option (Outcome (List RowMap)) :=
  match sliceParams with
  | [] => none
  | .str sql :: _ =>
    let warehouseID := cleanHttpPath t.HttpPath
    let source : Source :=
      { Name := [], Kind := [], Client := t.Client, HttpPath := warehouseID,
        Catalog := t.Catalog, Schema := t.Schema }
    let out := source.ExecuteSQL sql []
    match out.result with
    | .error err =>
      some { sent := out.sent,
             result := .error ("failed to execute SQL with warehouse ID ".toList ++ [quoteChar]
               ++ warehouseID ++ [quoteChar] ++ ": ".toList ++ err) }
    | .ok rows => some { sent := out.sent, result := .ok rows }
  | first :: _ =>
    some { sent := [],
           result := .error ("unable to cast parameter to string: ".toList ++ fmtV first) }

end Databricksexecutesql



/-! ## Definitions that follow the wording of the specification, and fixtures -/

namespace Databricks

/-- The literal form of a value: the text that `bindParam` hands to
`strings.Replace` as the replacement of a `?`. -/
def literal : Value → GoString
  | .str v => quoteChar :: Replace v quoteChar [quoteChar, quoteChar] (-1) ++ [quoteChar]
  | .int i => fmtV (.int i)
  | .int64 i => fmtV (.int64 i)
  | .float64 text => fmtV (.float64 text)
  | .bool b => fmtV (.bool b)
  | .nil => "NULL".toList
  | .other text => fmtV (.other text)

/-- Specification wording "embedded quote characters doubled": every single
quote of the value becomes two, every other character stays. -/
def specDoubleQuotes : GoString → GoString
  | [] => []
  | c :: cs =>
    if c = quoteChar then quoteChar :: quoteChar :: specDoubleQuotes cs
    else c :: specDoubleQuotes cs

/-- Specification wording "each positional placeholder replaced, in
left-to-right order, by the literal form of the corresponding value": the
i-th `?` of the original text becomes the i-th literal, and a `?` beyond the
literals stays. -/
def specSubstitute : GoString → List GoString → GoString
  | [], _ => []
  | c :: cs, [] => c :: cs
  | c :: cs, lit :: lits =>
    if c = '?' then lit ++ specSubstitute cs lits
    else c :: specSubstitute cs (lit :: lits)

/-- The statement texts of the requests a call sent. -/
def Outcome.statements {α : Type} (o : Outcome α) : List GoString :=
  o.sent.map (fun req => req.Statement)

/-- A warehouse client that answers every request with `resp`. -/
def answering (resp : StatementResponse) : WorkspaceClient := fun _ => .ok resp

/-- A warehouse client whose every call fails with message `msg`. -/
def failing (msg : GoString) : WorkspaceClient := fun _ => .error msg

/-- The response to `SELECT 1 AS test`: one column `test`, one row. -/
def select1Response : StatementResponse :=
  { Manifest := some { Schema := some { Columns := [{ Name := "test".toList }] } },
    Result := some { DataArray := some [[.int 1]] } }

/-- A source on warehouse `84c487324df116f0` whose client answers `resp`. -/
def sourceAnswering (resp : StatementResponse) : Source :=
  { Name := "my-databricks".toList, Kind := SourceKind, Client := answering resp,
    HttpPath := "84c487324df116f0".toList, Catalog := "my-catalog".toList,
    Schema := "my-schema".toList }

/-- A constructor `databricks.NewWorkspaceClient` that succeeds. -/
def newClientOk (resp : StatementResponse) :
    GoString → GoString → Except GoString WorkspaceClient :=
  fun _ _ => .ok (answering resp)

/-- A stand-in for the verb `%q` on plain text: the text in double quotes. -/
def plainQuote (s : GoString) : GoString := '"' :: s ++ ['"']

/-- A sources map with the single entry `name`. -/
def sourcesWith (name : GoString) (src : AnySource) : GoString → Option AnySource :=
  fun key => if key = name then some src else none

/-- A templated tool configuration on the source `my-databricks`. -/
def templatedConfig (statement : GoString) : Databrickssql.Config :=
  { Name := "my-tool".toList, Kind := Databrickssql.ToolKind, Source := "my-databricks".toList,
    Description := "templated".toList, Statement := statement, AuthRequired := [] }

/-- A free-form tool configuration on the source `my-databricks`. -/
def freeFormConfig : Databricksexecutesql.Config :=
  { Name := "my-exec-sql-tool".toList, Kind := Databricksexecutesql.ToolKind,
    Source := "my-databricks".toList, Description := "free-form".toList, AuthRequired := [] }

/-- A source configuration with connection target `httpPath`. -/
def sourceConfig (httpPath : GoString) : Config :=
  { Name := "my-databricks".toList, Kind := SourceKind, Host := "my-host".toList,
    Token := "my-token".toList, HttpPath := httpPath, Catalog := "my-catalog".toList,
    Schema := "my-schema".toList }

/-- A response whose schema is present and has no columns, with two data rows. -/
def noColumnsResponse : StatementResponse :=
  { Manifest := some { Schema := some { Columns := [] } },
    Result := some { DataArray := some [[.int 1], [.int 2]] } }

/-- A response with columns `a`, `b` and one short and one long row. -/
def raggedResponse : StatementResponse :=
  { Manifest := some { Schema := some { Columns := [{ Name := "a".toList }, { Name := "b".toList }] } },
    Result := some { DataArray := some [[.int 1], [.int 2, .int 3, .int 4]] } }

/-- A free-form tool on warehouse `httpPath` whose client answers `resp`. -/
def freeFormTool (httpPath : GoString) (resp : StatementResponse) : Databricksexecutesql.Tool :=
  { Name := "my-exec-sql-tool".toList, Kind := Databricksexecutesql.ToolKind, AuthRequired := [],
    Client := answering resp, HttpPath := httpPath, Catalog := [], Schema := [] }

/-- Reading of a quoted interior, in the wording of C16: left to right, each
pair of single quotes becomes one single quote, every other character stays,
and a single quote without a partner makes the reading fail. -/
def specCollapseQuotes : GoString → Option GoString
  | [] => some []
  | c :: rest =>
    if c = quoteChar then
      match rest with
      | [] => none
      | d :: rest2 =>
        if d = quoteChar then (specCollapseQuotes rest2).map (fun out => quoteChar :: out)
        else none
    else (specCollapseQuotes rest).map (fun out => c :: out)

/-- A source of kind `kind` that lacks the four accessors. -/
def incompatibleSource (kind : GoString) : AnySource :=
  { SourceKind := kind, compatible := none }

/-- A compatible source on warehouse `httpPath` whose client is `client`. -/
def compatibleOn (httpPath : GoString) (client : WorkspaceClient) : AnySource :=
  { SourceKind := SourceKind,
    compatible := some { DatabricksClient := client, GetHttpPath := httpPath,
                         GetCatalog := [], GetSchema := [] } }

/-- A templated tool on warehouse `httpPath` with client `client`. -/
def templatedTool (httpPath statement : GoString) (client : WorkspaceClient) :
    Databrickssql.Tool :=
  { Name := "my-tool".toList, Kind := Databrickssql.ToolKind, AuthRequired := [],
    Client := client, HttpPath := httpPath, Catalog := [], Schema := [],
    Statement := statement }

end Databricks

/-! ## Lemmas on `Split` and on the segment loop -/

namespace Databricks

theorem nonEmptyParts_foldl (segments acc : List GoString) :
    segments.foldl (fun parts part => if part ≠ [] then parts ++ [part] else parts) acc
      = acc ++ segments.filter (fun part => decide (part ≠ [])) := by
  induction segments generalizing acc with
  | nil => simp
  | cons seg rest ih =>
    rw [List.foldl_cons, ih]
    by_cases h : seg = []
    · simp [h]
    · simp [h]

theorem nonEmptyParts_eq_filter (segments : List GoString) :
    nonEmptyParts segments = segments.filter (fun part => decide (part ≠ [])) := by
  unfold nonEmptyParts
  rw [nonEmptyParts_foldl]
  simp

theorem Split_ne_nil (s : GoString) (sep : Char) : Split s sep ≠ [] := by
  cases s with
  | nil => simp [Split]
  | cons c cs =>
    by_cases h : c = sep
    · simp [Split, h]
    · simp only [Split, h, if_false]
      split <;> simp

theorem Split_cons_ne (c : Char) (cs : GoString) (sep : Char) (h : c ≠ sep) :
    ∃ seg segs, Split cs sep = seg :: segs ∧ Split (c :: cs) sep = (c :: seg) :: segs := by
  cases hs : Split cs sep with
  | nil => exact absurd hs (Split_ne_nil cs sep)
  | cons seg segs =>
    refine ⟨seg, segs, rfl, ?_⟩
    simp [Split, h, hs]

theorem Split_of_not_mem (a : GoString) (sep : Char) (h : sep ∉ a) : Split a sep = [a] := by
  induction a with
  | nil => simp [Split]
  | cons c cs ih =>
    have hc : c ≠ sep := fun e => h (by simp [e])
    have hcs : sep ∉ cs := fun e => h (List.mem_cons_of_mem _ e)
    obtain ⟨seg, segs, h1, h2⟩ := Split_cons_ne c cs sep hc
    rw [ih hcs] at h1
    cases h1
    exact h2

theorem Split_append (a b : GoString) (sep : Char) :
    Split (a ++ sep :: b) sep = Split a sep ++ Split b sep := by
  induction a with
  | nil => simp [Split]
  | cons c cs ih =>
    by_cases hc : c = sep
    · simp [Split, hc, ih]
    · obtain ⟨seg, segs, h1, h2⟩ := Split_cons_ne c cs sep hc
      obtain ⟨seg2, segs2, h3, h4⟩ := Split_cons_ne c (cs ++ sep :: b) sep hc
      rw [List.cons_append, h4, h2]
      rw [ih, h1] at h3
      simp only [List.cons_append, List.cons.injEq] at h3
      simp [h3.1, h3.2]

theorem Split_all_sep (t : GoString) (sep : Char) (h : ∀ c ∈ t, c = sep) :
    ∀ seg ∈ Split t sep, seg = [] := by
  induction t with
  | nil => simp [Split]
  | cons c cs ih =>
    have hc : c = sep := h c (by simp)
    have hcs : ∀ x ∈ cs, x = sep := fun x hx => h x (List.mem_cons_of_mem _ hx)
    intro seg hseg
    simp only [Split, hc, if_true, List.mem_cons] at hseg
    rcases hseg with h1 | h1
    · exact h1
    · exact ih hcs seg h1

theorem Split_no_sep (s : GoString) (sep : Char) : ∀ seg ∈ Split s sep, sep ∉ seg := by
  induction s with
  | nil => simp [Split]
  | cons c cs ih =>
    by_cases hc : c = sep
    · intro seg hseg
      simp only [Split, hc, if_true, List.mem_cons] at hseg
      rcases hseg with h1 | h1
      · simp [h1]
      · exact ih seg h1
    · obtain ⟨seg0, segs, h1, h2⟩ := Split_cons_ne c cs sep hc
      intro seg hseg
      rw [h2] at hseg
      rw [h1] at ih
      rcases List.mem_cons.1 hseg with h3 | h3
      · rw [h3]
        intro hm
        rcases List.mem_cons.1 hm with h4 | h4
        · exact hc h4.symm
        · exact ih seg0 (by simp) h4
      · exact ih seg (List.mem_cons_of_mem _ h3)

theorem filter_all_empty (segs : List GoString) (h : ∀ seg ∈ segs, seg = []) :
    segs.filter (fun part => decide (part ≠ [])) = [] := by
  rw [List.filter_eq_nil_iff]
  intro seg hseg
  simp [h seg hseg]

theorem parts_all_sep (t : GoString) (sep : Char) (h : ∀ c ∈ t, c = sep) :
    nonEmptyParts (Split t sep) = [] := by
  rw [nonEmptyParts_eq_filter]
  exact filter_all_empty _ (Split_all_sep t sep h)

/-- The parts of `pre ++ sep :: id ++ tail` (or of `id ++ tail`) end with `id`
when `id` is a non-empty separator-free run and `tail` holds separators only. -/
theorem parts_of_decomposition (front id tail : GoString) (sep : Char)
    (hid : id ≠ []) (hsep : sep ∉ id) (htail : ∀ c ∈ tail, c = sep)
    (hfront : front = [] ∨ ∃ p, front = p ++ [sep]) :
    ∃ before, nonEmptyParts (Split (front ++ id ++ tail) sep) = before ++ [id] := by
  have hrest : nonEmptyParts (Split (id ++ tail) sep) = [id] := by
    cases tail with
    | nil =>
      rw [List.append_nil, Split_of_not_mem id sep hsep, nonEmptyParts_eq_filter]
      simp [hid]
    | cons c cs =>
      have hc : c = sep := htail c (by simp)
      have hcs : ∀ x ∈ cs, x = sep := fun x hx => htail x (List.mem_cons_of_mem _ hx)
      rw [hc, Split_append, Split_of_not_mem id sep hsep, nonEmptyParts_eq_filter,
        List.filter_append, filter_all_empty _ (Split_all_sep cs sep hcs)]
      simp [hid]
  rcases hfront with h | ⟨p, h⟩
  · exact ⟨[], by simpa [h] using hrest⟩
  · refine ⟨nonEmptyParts (Split p sep), ?_⟩
    have e : front ++ id ++ tail = p ++ sep :: (id ++ tail) := by simp [h]
    rw [e, Split_append, nonEmptyParts_eq_filter, List.filter_append,
      ← nonEmptyParts_eq_filter, ← nonEmptyParts_eq_filter, hrest]

/-- Every string with a character other than the separator splits into a
front that is empty or ends with the separator, a last non-empty
separator-free run, and a tail of separators. -/
theorem exists_decomposition (sep : Char) (s : GoString) (h : ∃ c ∈ s, c ≠ sep) :
    ∃ front id tail, s = front ++ id ++ tail ∧ id ≠ [] ∧ sep ∉ id ∧ (∀ c ∈ tail, c = sep)
      ∧ (front = [] ∨ ∃ p, front = p ++ [sep]) := by
  induction s with
  | nil => simp at h
  | cons c cs ih =>
    by_cases hcs : ∃ x ∈ cs, x ≠ sep
    · obtain ⟨front, id, tail, e, hid, hsep, htail, hfront⟩ := ih hcs
      rcases hfront with hf | ⟨p, hf⟩
      · by_cases hc : c = sep
        · exact ⟨[sep], id, tail, by simp [e, hf, hc], hid, hsep, htail, Or.inr ⟨[], by simp⟩⟩
        · refine ⟨[], c :: id, tail, by simp [e, hf], by simp, ?_, htail, Or.inl rfl⟩
          intro hm
          rcases List.mem_cons.1 hm with h4 | h4
          · exact hc h4.symm
          · exact hsep h4
      · exact ⟨c :: front, id, tail, by simp [e], hid, hsep, htail, Or.inr ⟨c :: p, by simp [hf]⟩⟩
    · have hall : ∀ x ∈ cs, x = sep := by
        intro x hx
        by_contra hne
        exact hcs ⟨x, hx, hne⟩
      have hc : c ≠ sep := by
        obtain ⟨x, hx, hne⟩ := h
        rcases List.mem_cons.1 hx with h4 | h4
        · exact h4 ▸ hne
        · exact absurd (hall x h4) hne
      exact ⟨[], [c], cs, by simp, by simp, by simpa using hc.symm, hall, Or.inl rfl⟩

end Databricks

/-! ## Lemmas on `Replace`, the binding loop and `ExecuteSQL` -/

namespace Databricks

theorem Replace_zero (s : GoString) (old : Char) (new : GoString) : Replace s old new 0 = s := by
  cases s <;> simp [Replace]

theorem Replace_not_mem (s : GoString) (old : Char) (new : GoString) (n : Int) (h : old ∉ s) :
    Replace s old new n = s := by
  induction s generalizing n with
  | nil => simp [Replace]
  | cons c cs ih =>
    have hc : c ≠ old := fun e => h (by simp [e])
    have hcs : old ∉ cs := fun e => h (List.mem_cons_of_mem _ e)
    simp [Replace, hc, ih _ hcs]

theorem Replace_first (front back : GoString) (old : Char) (new : GoString) (h : old ∉ front) :
    Replace (front ++ old :: back) old new 1 = front ++ new ++ back := by
  induction front with
  | nil => simp [Replace, Replace_zero]
  | cons c cs ih =>
    have hc : c ≠ old := fun e => h (by simp [e])
    have hcs : old ∉ cs := fun e => h (List.mem_cons_of_mem _ e)
    simp [Replace, hc, ih hcs]

theorem Replace_all_eq_specDoubleQuotes (v : GoString) :
    Replace v quoteChar [quoteChar, quoteChar] (-1) = specDoubleQuotes v := by
  have key : ∀ (n : Int), n < 0 →
      Replace v quoteChar [quoteChar, quoteChar] n = specDoubleQuotes v := by
    induction v with
    | nil => intro n _; simp [Replace, specDoubleQuotes]
    | cons c cs ih =>
      intro n hn
      have hn0 : n ≠ 0 := by omega
      by_cases hc : c = quoteChar
      · simp [Replace, specDoubleQuotes, hc, hn0, ih (n - 1) (by omega)]
      · simp [Replace, specDoubleQuotes, hc, hn0, ih n hn]
  exact key (-1) (by omega)

theorem bindParam_eq (statement : GoString) (param : Value) :
    bindParam statement param = Replace statement '?' (literal param) 1 := by
  cases param <;> rfl

theorem exists_first (c : Char) (s : GoString) (h : c ∈ s) :
    ∃ front back, s = front ++ c :: back ∧ c ∉ front := by
  induction s with
  | nil => simp at h
  | cons d ds ih =>
    by_cases hd : d = c
    · exact ⟨[], ds, by simp [hd], by simp⟩
    · have hds : c ∈ ds := by
        rcases List.mem_cons.1 h with h1 | h1
        · exact absurd h1.symm hd
        · exact h1
      obtain ⟨front, back, e, hf⟩ := ih hds
      refine ⟨d :: front, back, by simp [e], ?_⟩
      intro hm
      rcases List.mem_cons.1 hm with h1 | h1
      · exact hd h1.symm
      · exact hf h1

/-- The request that `ExecuteSQL` builds under a non-empty warehouse identifier. -/
theorem ExecuteSQL_nonempty (s : Source) (statement : GoString) (params : List Value)
    (h : s.HttpPath ≠ []) :
    ∃ req : ExecuteStatementRequest,
      req.WarehouseId = s.HttpPath ∧ req.Catalog = s.Catalog ∧ req.Schema = s.Schema ∧
      req.Statement = (if params.length > 0 then params.foldl bindParam statement else statement) ∧
      (s.ExecuteSQL statement params).sent = [req] ∧
      (s.ExecuteSQL statement params).result =
        (match s.Client req with
          | .error err => .error ("failed to execute SQL: ".toList ++ err)
          | .ok resp => .ok (convertRows resp)) := by
  refine ⟨ExecuteStatementRequest.mk s.HttpPath
      (if params.length > 0 then params.foldl bindParam statement else statement)
      s.Catalog s.Schema, rfl, rfl, rfl, rfl, ?_⟩
  unfold Source.ExecuteSQL
  by_cases h1 : s.Catalog = [] <;> by_cases h2 : s.Schema = [] <;>
    by_cases h3 : params.length > 0 <;>
    simp only [h, h1, h2, h3, if_false, if_true, ne_eq, not_true_eq_false, not_false_eq_true] <;>
    constructor <;> split <;> simp_all

end Databricks

namespace Databricks

theorem ExecuteSQL_statements (s : Source) (statement : GoString) (params : List Value)
    (h : s.HttpPath ≠ []) :
    (s.ExecuteSQL statement params).statements =
      [if params.length > 0 then params.foldl bindParam statement else statement] := by
  obtain ⟨req, _, _, _, h4, h5, _⟩ := ExecuteSQL_nonempty s statement params h
  simp [Outcome.statements, h5, h4]

theorem templated_Invoke_sent (t : Databrickssql.Tool) (params : List Value) :
    (t.Invoke params).sent =
      (Source.ExecuteSQL { Name := [], Kind := [], Client := t.Client, HttpPath := t.HttpPath,
                           Catalog := t.Catalog, Schema := t.Schema } t.Statement params).sent := by
  unfold Databrickssql.Tool.Invoke
  simp only
  split <;> rfl

theorem templated_Invoke_statements (t : Databrickssql.Tool) (params : List Value)
    (h : t.HttpPath ≠ []) :
    (t.Invoke params).statements =
      [if params.length > 0 then params.foldl bindParam t.Statement else t.Statement] := by
  have e := ExecuteSQL_statements (Source.mk [] [] t.Client t.HttpPath t.Catalog t.Schema)
    t.Statement params h
  simp only [Outcome.statements] at e ⊢
  rw [templated_Invoke_sent]
  exact e

end Databricks

/-! ## Claims -/

open Databricks

/-- C1: binding the one-value sequence `[v]`, `v` a string, in
`Source.ExecuteSQL` (also through the templated tool's `Invoke`) replaces the
first `?` of a statement by a single quote, `v` with every single quote
doubled, and a single quote, and leaves the text before and after the `?`
unchanged; `O'Brien` becomes the literal `'O''Brien'`, and
`SELECT * FROM t WHERE country = ?` bound with `it's ok` is sent as
`SELECT * FROM t WHERE country = 'it''s ok'`. -/
theorem string_binding_doubles_quotes_and_wraps (s : Source) (t : Databrickssql.Tool)
    (v : GoString) (hs : s.HttpPath ≠ []) (ht : t.HttpPath ≠ []) (hq : '?' ∈ t.Statement) :
    (∃ front back, t.Statement = front ++ '?' :: back ∧ '?' ∉ front ∧
      (s.ExecuteSQL t.Statement [.str v]).statements
        = [front ++ quoteChar :: specDoubleQuotes v ++ quoteChar :: back] ∧
      (t.Invoke [.str v]).statements
        = [front ++ quoteChar :: specDoubleQuotes v ++ quoteChar :: back]) ∧
    literal (.str "O'Brien".toList) = "'O''Brien'".toList ∧
    (s.ExecuteSQL "SELECT * FROM t WHERE country = ?".toList [.str "it's ok".toList]).statements
      = ["SELECT * FROM t WHERE country = 'it''s ok'".toList] := by
  refine ⟨?_, by decide, ?_⟩
  · obtain ⟨front, back, e, hf⟩ := exists_first '?' t.Statement hq
    have hb : bindParam t.Statement (.str v)
        = front ++ quoteChar :: specDoubleQuotes v ++ quoteChar :: back := by
      rw [bindParam_eq, e, Replace_first front back '?' _ hf]
      simp [literal, Replace_all_eq_specDoubleQuotes]
    refine ⟨front, back, e, hf, ?_, ?_⟩
    · rw [ExecuteSQL_statements s _ _ hs]
      simp [hb]
    · rw [templated_Invoke_statements t _ ht]
      simp [hb]
  · rw [ExecuteSQL_statements s _ _ hs]
    decide

/-- Witness of C1 on the statement `SELECT ? FROM t WHERE a = ?`. -/
theorem string_binding_doubles_quotes_and_wraps_witness :
    (sourceAnswering select1Response).HttpPath ≠ [] ∧
    '?' ∈ "SELECT ? FROM t WHERE a = ?".toList ∧
    ((∃ front back, "SELECT ? FROM t WHERE a = ?".toList = front ++ '?' :: back ∧ '?' ∉ front ∧
      ((sourceAnswering select1Response).ExecuteSQL "SELECT ? FROM t WHERE a = ?".toList
          [.str "O'Brien".toList]).statements
        = [front ++ quoteChar :: specDoubleQuotes "O'Brien".toList ++ quoteChar :: back] ∧
      (Databrickssql.Tool.Invoke
          { Name := [], Kind := [], AuthRequired := [], Client := answering select1Response,
            HttpPath := "wh".toList, Catalog := [], Schema := [],
            Statement := "SELECT ? FROM t WHERE a = ?".toList }
          [.str "O'Brien".toList]).statements
        = [front ++ quoteChar :: specDoubleQuotes "O'Brien".toList ++ quoteChar :: back]) ∧
    literal (.str "O'Brien".toList) = "'O''Brien'".toList ∧
    ((sourceAnswering select1Response).ExecuteSQL "SELECT * FROM t WHERE country = ?".toList
        [.str "it's ok".toList]).statements
      = ["SELECT * FROM t WHERE country = 'it''s ok'".toList]) :=
  ⟨by decide, by decide,
    string_binding_doubles_quotes_and_wraps (sourceAnswering select1Response)
      { Name := [], Kind := [], AuthRequired := [], Client := answering select1Response,
        HttpPath := "wh".toList, Catalog := [], Schema := [],
        Statement := "SELECT ? FROM t WHERE a = ?".toList }
      "O'Brien".toList (by decide) (by decide) (by decide)⟩

namespace Databricks

theorem specSubstitute_nil (statement : GoString) : specSubstitute statement [] = statement := by
  cases statement <;> simp [specSubstitute]

theorem specSubstitute_append_left (a b : GoString) (lits : List GoString) (h : '?' ∉ a) :
    specSubstitute (a ++ b) lits = a ++ specSubstitute b lits := by
  induction a with
  | nil => simp
  | cons c cs ih =>
    have hc : c ≠ '?' := fun e => h (by simp [e])
    have hcs : '?' ∉ cs := fun e => h (List.mem_cons_of_mem _ e)
    cases lits with
    | nil => simp [specSubstitute_nil]
    | cons lit lits => simp [specSubstitute, hc, ih hcs]

theorem specSubstitute_not_mem (a : GoString) (lits : List GoString) (h : '?' ∉ a) :
    specSubstitute a lits = a := by
  have e := specSubstitute_append_left a [] lits h
  simp only [List.append_nil] at e
  rw [e]
  cases lits <;> simp [specSubstitute]

theorem specSubstitute_first (front back lit : GoString) (lits : List GoString)
    (h : '?' ∉ front) :
    specSubstitute (front ++ '?' :: back) (lit :: lits)
      = front ++ lit ++ specSubstitute back lits := by
  rw [specSubstitute_append_left _ _ _ h]
  simp [specSubstitute]

/-- The binding loop is the positional substitution whenever no literal
brings a `?` of its own into the statement. -/
theorem foldl_bindParam_eq_specSubstitute (params : List Value) (statement : GoString)
    (h : ∀ p ∈ params, '?' ∉ literal p) :
    params.foldl bindParam statement = specSubstitute statement (params.map literal) := by
  induction params generalizing statement with
  | nil => simp [specSubstitute_nil]
  | cons p ps ih =>
    have hp : '?' ∉ literal p := h p (by simp)
    have hps : ∀ x ∈ ps, '?' ∉ literal x := fun x hx => h x (List.mem_cons_of_mem _ hx)
    rw [List.foldl_cons, ih _ hps, bindParam_eq]
    by_cases hq : '?' ∈ statement
    · obtain ⟨front, back, e, hf⟩ := exists_first '?' statement hq
      have hfl : '?' ∉ front ++ literal p := by
        intro hm
        rcases List.mem_append.1 hm with h1 | h1
        · exact hf h1
        · exact hp h1
      rw [e, Replace_first front back '?' _ hf, List.map_cons, specSubstitute_first _ _ _ _ hf,
        specSubstitute_append_left _ _ _ hfl]
    · rw [Replace_not_mem _ _ _ _ hq, specSubstitute_not_mem _ _ hq,
        specSubstitute_not_mem _ _ hq]

end Databricks

/-- C2, evaluated where the code departs from it: `SELECT ?, ?` has two
placeholders and is bound with the two strings `a?` and `b`; the positional
substitution is `SELECT 'a?', 'b'`, but the statement sent is
`SELECT 'a'b'', ?`, because the second pass replaces the `?` that the first
literal brought in. -/
theorem second_value_lands_inside_first_literal :
    List.count '?' "SELECT ?, ?".toList = 2 ∧
    [Value.str "a?".toList, Value.str "b".toList].length = 2 ∧
    ((sourceAnswering select1Response).ExecuteSQL "SELECT ?, ?".toList
        [.str "a?".toList, .str "b".toList]).statements = ["SELECT 'a'b'', ?".toList] ∧
    specSubstitute "SELECT ?, ?".toList
        ([Value.str "a?".toList, Value.str "b".toList].map literal)
      = "SELECT 'a?', 'b'".toList := by
  decide

/-- The positional reading of C2 holds for every statement and every value
sequence none of whose literals contains a `?`. -/
theorem binding_is_positional_without_placeholder_in_literals (s : Source)
    (statement : GoString) (params : List Value) (hs : s.HttpPath ≠ [])
    (h : ∀ p ∈ params, '?' ∉ literal p) :
    (s.ExecuteSQL statement params).statements
      = [specSubstitute statement (params.map literal)] := by
  rw [ExecuteSQL_statements s _ _ hs]
  by_cases hp : params.length > 0
  · simp [hp, foldl_bindParam_eq_specSubstitute params statement h]
  · have e : params = [] := by
      cases params with
      | nil => rfl
      | cons p ps => simp at hp
    simp [e, specSubstitute_nil]

/-- Witness of the positional reading on `SELECT ?, ?` with an integer and a string. -/
theorem binding_is_positional_without_placeholder_in_literals_witness :
    ((sourceAnswering select1Response).ExecuteSQL "SELECT ?, ?".toList
        [.int 7, .str "b".toList]).statements
      = [specSubstitute "SELECT ?, ?".toList ([Value.int 7, Value.str "b".toList].map literal)] :=
  binding_is_positional_without_placeholder_in_literals (sourceAnswering select1Response)
    "SELECT ?, ?".toList [.int 7, .str "b".toList] (by decide) (by decide)

/-- C3 as stated fails: the templated tool on `SELECT ?, ?` (two placeholders)
invoked with one value initializes without error, sends `SELECT 'a', ?` to
the warehouse and returns the rows, with no error anywhere. -/
theorem count_mismatch_is_not_rejected :
    List.count '?' "SELECT ?, ?".toList ≠ [Value.str "a".toList].length ∧
    ∃ t, Databrickssql.Config.Initialize plainQuote (templatedConfig "SELECT ?, ?".toList)
          (sourcesWith "my-databricks".toList (sourceAnswering select1Response).toAnySource)
          = .ok t ∧
      t.HttpPath ≠ [] ∧
      (t.Invoke [.str "a".toList]).statements = ["SELECT 'a', ?".toList] ∧
      (t.Invoke [.str "a".toList]).result = .ok [[("test".toList, .int 1)]] :=
  ⟨by decide, _, rfl, by decide, by decide, rfl⟩

/-- C3, amended: neither `Config.Initialize` of the templated tool nor
`Invoke` / `Source.ExecuteSQL` compares the number of placeholders with the
number of values.  On a compatible source with a non-empty warehouse
identifier, `Initialize` succeeds whatever the statement, and `Invoke` sends
exactly one request for every value sequence; its result is an error only
when the warehouse call fails.  When no literal contains a `?`, the statement
sent is the positional substitution, in which placeholders beyond the values
stay and values beyond the placeholders are unused. -/
theorem count_mismatch_sends_the_sequential_substitution (quote : GoString → GoString)
    (cfg : Databrickssql.Config) (srcs : GoString → Option AnySource) (rawS : AnySource)
    (cs : CompatibleSource) (params : List Value)
    (h1 : srcs cfg.Source = some rawS) (h2 : rawS.compatible = some cs)
    (hw : cs.GetHttpPath ≠ []) :
    ∃ t, Databrickssql.Config.Initialize quote cfg srcs = .ok t ∧
      ∃ req, (t.Invoke params).sent = [req] ∧ req.WarehouseId = cs.GetHttpPath ∧
        ((∀ p ∈ params, '?' ∉ literal p) →
          req.Statement = specSubstitute cfg.Statement (params.map literal)) ∧
        (∀ resp, cs.DatabricksClient req = .ok resp →
          (t.Invoke params).result = .ok (convertRows resp)) ∧
        (∀ err, cs.DatabricksClient req = .error err →
          (t.Invoke params).result
            = .error ("failed to execute SQL: failed to execute SQL: ".toList ++ err)) := by
  refine ⟨Databrickssql.Tool.mk cfg.Name Databrickssql.ToolKind cfg.AuthRequired
    cs.DatabricksClient cs.GetHttpPath cs.GetCatalog cs.GetSchema cfg.Statement, ?_, ?_⟩
  · simp [Databrickssql.Config.Initialize, h1, h2]
  · obtain ⟨req, e1, _, _, e4, e5, e6⟩ := ExecuteSQL_nonempty
      (Source.mk [] [] cs.DatabricksClient cs.GetHttpPath cs.GetCatalog cs.GetSchema)
      cfg.Statement params hw
    refine ⟨req, ?_, e1, ?_, ?_, ?_⟩
    · rw [templated_Invoke_sent]
      exact e5
    · intro hp
      rw [e4]
      by_cases hl : params.length > 0
      · simp [hl, foldl_bindParam_eq_specSubstitute params cfg.Statement hp]
      · have e : params = [] := by
          cases params with
          | nil => rfl
          | cons p ps => simp at hl
        simp [e, specSubstitute_nil]
    · intro resp hresp
      simp only at e6 hresp
      unfold Databrickssql.Tool.Invoke
      simp only [e6, hresp]
    · intro err herr
      simp only at e6 herr
      unfold Databrickssql.Tool.Invoke
      simp only [e6, herr]
      simp

/-- Witness of the amended C3: one placeholder, no value. -/
theorem count_mismatch_sends_the_sequential_substitution_witness :
    ∃ t, Databrickssql.Config.Initialize plainQuote (templatedConfig "SELECT ?".toList)
          (sourcesWith "my-databricks".toList (sourceAnswering select1Response).toAnySource)
          = .ok t ∧
      ∃ req, (t.Invoke []).sent = [req] ∧ req.WarehouseId = "84c487324df116f0".toList ∧
        ((∀ p ∈ ([] : List Value), '?' ∉ literal p) →
          req.Statement = specSubstitute "SELECT ?".toList (([] : List Value).map literal)) ∧
        (∀ resp, answering select1Response req = .ok resp →
          (t.Invoke []).result = .ok (convertRows resp)) ∧
        (∀ err, answering select1Response req = .error err →
          (t.Invoke []).result
            = .error ("failed to execute SQL: failed to execute SQL: ".toList ++ err)) :=
  count_mismatch_sends_the_sequential_substitution plainQuote (templatedConfig "SELECT ?".toList)
    (sourcesWith "my-databricks".toList (sourceAnswering select1Response).toAnySource)
    (sourceAnswering select1Response).toAnySource
    (CompatibleSource.mk (answering select1Response) "84c487324df116f0".toList
      "my-catalog".toList "my-schema".toList)
    [] rfl rfl (by decide)

namespace Databricks

theorem head_slash_ne_nil (s : GoString) (h : s.head? = some '/') : s ≠ [] := by
  intro e
  simp [e] at h

theorem ExtractWarehouseID_slash (s : GoString) (h : s.head? = some '/') :
    ExtractWarehouseID s = lastPart (nonEmptyParts (Split s '/')) := by
  have hne : s ≠ [] := head_slash_ne_nil s h
  have hlen : s.length > 0 := List.length_pos.2 hne
  unfold ExtractWarehouseID
  simp only [hne, if_false, hlen, h, and_self, if_true]
  by_cases hp : (nonEmptyParts (Split s '/')).length > 0
  · simp [hp]
  · have e : nonEmptyParts (Split s '/') = [] := by
      cases hparts : nonEmptyParts (Split s '/') with
      | nil => rfl
      | cons p ps => simp [hparts] at hp
    simp [e, lastPart]

theorem ExtractWarehouseID_no_slash_head (s : GoString) (h : s.head? ≠ some '/') :
    ExtractWarehouseID s = s := by
  unfold ExtractWarehouseID
  by_cases hne : s = []
  · simp [hne]
  · simp [hne, h]

theorem ExtractWarehouseID_of_not_mem (x : GoString) (h : '/' ∉ x) :
    ExtractWarehouseID x = x := by
  apply ExtractWarehouseID_no_slash_head
  intro hh
  cases x with
  | nil => simp at hh
  | cons c cs =>
    simp only [List.head?_cons, Option.some.injEq] at hh
    exact h (by simp [hh])

theorem cleanHttpPath_slash (s : GoString) (h : s.head? = some '/') :
    cleanHttpPath s =
      if (nonEmptyParts (Split s '/')).length > 0 then lastPart (nonEmptyParts (Split s '/'))
      else s := by
  have hne : s ≠ [] := head_slash_ne_nil s h
  have hlen : s.length > 0 := List.length_pos.2 hne
  unfold cleanHttpPath
  simp only [hlen, h, and_self, if_true]

theorem cleanHttpPath_no_slash_head (s : GoString) (h : s.head? ≠ some '/') :
    cleanHttpPath s = s := by
  unfold cleanHttpPath
  simp [h]

theorem lastPart_mem (parts : List GoString) (h : parts ≠ []) : lastPart parts ∈ parts := by
  unfold lastPart
  rw [List.getLastD_eq_getLast?, List.getLast?_eq_getLast _ h]
  exact List.getLast_mem h

theorem mem_nonEmptyParts (seg : GoString) (segments : List GoString)
    (h : seg ∈ nonEmptyParts segments) : seg ∈ segments ∧ seg ≠ [] := by
  rw [nonEmptyParts_eq_filter, List.mem_filter] at h
  exact ⟨h.1, by simpa using h.2⟩

/-- The decomposition of a path that begins with `/` and has a character
other than `/`, with the identifier that both normalizations yield. -/
theorem slash_path_decomposition (s : GoString) (h : s.head? = some '/')
    (hc : ∃ c ∈ s, c ≠ '/') :
    ∃ front id tail before, s = front ++ '/' :: id ++ tail ∧ id ≠ [] ∧ '/' ∉ id ∧
      (∀ c ∈ tail, c = '/') ∧ nonEmptyParts (Split s '/') = before ++ [id] := by
  obtain ⟨front, id, tail, e, hid, hsep, htail, hfront⟩ := exists_decomposition '/' s hc
  have hf : ∃ p, front = p ++ ['/'] := by
    rcases hfront with hf | hf
    · exfalso
      cases id with
      | nil => exact hid rfl
      | cons c cs =>
        rw [e, hf] at h
        simp only [List.nil_append, List.cons_append, List.head?_cons, Option.some.injEq] at h
        exact hsep (by simp [h])
    · exact hf
  obtain ⟨before, hb⟩ := parts_of_decomposition front id tail '/' hid hsep htail hfront
  obtain ⟨p, hp⟩ := hf
  exact ⟨p, id, tail, before, by simp [e, hp], hid, hsep, htail, by rw [e]; exact hb⟩

end Databricks

/-- C4: `ExtractWarehouseID` is the specified normalization.  For a path that
begins with `/` and has a non-empty segment, the result is the last non-empty
segment: the path is `front ++ "/" ++ result ++ tail` with `tail` made of
`/` only, and the result is non-empty and holds no `/`.  For the empty string
and for a path of `/` only the result is empty; for a non-empty string that
does not begin with `/` the result is the string itself.  The examples of
the source comment hold, also with trailing and repeated separators. -/
theorem ExtractWarehouseID_is_the_normalization (s : GoString) :
    (s.head? = some '/' → (∃ c ∈ s, c ≠ '/') →
      ∃ front tail, s = front ++ '/' :: ExtractWarehouseID s ++ tail ∧ (∀ c ∈ tail, c = '/') ∧
        ExtractWarehouseID s ≠ [] ∧ '/' ∉ ExtractWarehouseID s ∧
        ((Split s '/').filter (fun seg => decide (seg ≠ []))).getLast?
          = some (ExtractWarehouseID s)) ∧
    ((∀ c ∈ s, c = '/') → ExtractWarehouseID s = []) ∧
    (s ≠ [] → s.head? ≠ some '/' → ExtractWarehouseID s = s) ∧
    ExtractWarehouseID "/sql/1.0/warehouses/84c487324df116f0".toList
      = "84c487324df116f0".toList ∧
    ExtractWarehouseID "84c487324df116f0".toList = "84c487324df116f0".toList ∧
    ExtractWarehouseID "/a//id/".toList = "id".toList ∧
    ExtractWarehouseID "/".toList = [] ∧
    ExtractWarehouseID [] = [] := by
  refine ⟨?_, ?_, ?_, by decide, by decide, by decide, by decide, by decide⟩
  · intro h hc
    obtain ⟨front, id, tail, before, e, hid, hsep, htail, hparts⟩ :=
      slash_path_decomposition s h hc
    have hE : ExtractWarehouseID s = id := by
      rw [ExtractWarehouseID_slash s h, hparts]
      simp [lastPart]
    rw [hE]
    refine ⟨front, tail, e, htail, hid, hsep, ?_⟩
    rw [← nonEmptyParts_eq_filter, hparts]
    simp
  · intro hall
    cases s with
    | nil => simp [ExtractWarehouseID]
    | cons c cs =>
      have hc : c = '/' := hall c (by simp)
      rw [ExtractWarehouseID_slash _ (by simp [hc]), parts_all_sep _ '/' hall]
      rfl
  · intro _ hh
    exact ExtractWarehouseID_no_slash_head s hh

/-- Witness of C4 on `/a//id/`, on `//` and on `id`. -/
theorem ExtractWarehouseID_is_the_normalization_witness :
    (∃ front tail, "/a//id/".toList = front ++ '/' :: ExtractWarehouseID "/a//id/".toList ++ tail ∧
        (∀ c ∈ tail, c = '/') ∧ ExtractWarehouseID "/a//id/".toList ≠ [] ∧
        '/' ∉ ExtractWarehouseID "/a//id/".toList ∧
        ((Split "/a//id/".toList '/').filter (fun seg => decide (seg ≠ []))).getLast?
          = some (ExtractWarehouseID "/a//id/".toList)) ∧
    ExtractWarehouseID "//".toList = [] ∧
    ExtractWarehouseID "id".toList = "id".toList :=
  ⟨(ExtractWarehouseID_is_the_normalization "/a//id/".toList).1 (by decide)
      ⟨'a', by decide, by decide⟩,
    (ExtractWarehouseID_is_the_normalization "//".toList).2.1 (by decide),
    (ExtractWarehouseID_is_the_normalization "id".toList).2.2.1 (by decide) (by decide)⟩

/-- C6: `ExtractWarehouseID` is idempotent. -/
theorem ExtractWarehouseID_idempotent (s : GoString) :
    ExtractWarehouseID (ExtractWarehouseID s) = ExtractWarehouseID s := by
  by_cases h : s.head? = some '/'
  · rw [ExtractWarehouseID_slash s h]
    by_cases hp : nonEmptyParts (Split s '/') = []
    · rw [hp]
      decide
    · have hm := mem_nonEmptyParts _ _ (lastPart_mem _ hp)
      exact ExtractWarehouseID_of_not_mem _ (Split_no_sep s '/' _ hm.1)
  · rw [ExtractWarehouseID_no_slash_head s h, ExtractWarehouseID_no_slash_head s h]

/-- C5, evaluated where the code departs from it: for the configured
`http_path` `/`, client creation succeeding, `Config.Initialize` returns a
Source whose `GetHttpPath` is `/`, while `ExtractWarehouseID` of `/` is the
empty string. -/
theorem Initialize_keeps_a_path_of_slashes :
    (∃ src, Config.Initialize (newClientOk select1Response) (sourceConfig "/".toList) = .ok src ∧
      src.GetHttpPath = "/".toList) ∧
    ExtractWarehouseID "/".toList = [] :=
  ⟨⟨_, rfl, by decide⟩, by decide⟩

/-- The connection target that `Config.Initialize` stores, for every
`http_path`: the identifier `ExtractWarehouseID` yields when the path is
empty or has a character other than `/`, and the path itself when it is
non-empty and made of `/` only. -/
theorem Initialize_HttpPath (newWorkspaceClient : GoString → GoString → Except GoString WorkspaceClient)
    (r : Config) (client : WorkspaceClient) (hclient : newWorkspaceClient r.Host r.Token = .ok client) :
    ∃ src, Config.Initialize newWorkspaceClient r = .ok src ∧
      src.GetHttpPath = cleanHttpPath r.HttpPath ∧
      ((r.HttpPath = [] ∨ ∃ c ∈ r.HttpPath, c ≠ '/') →
        src.GetHttpPath = ExtractWarehouseID r.HttpPath) ∧
      (r.HttpPath ≠ [] → (∀ c ∈ r.HttpPath, c = '/') →
        src.GetHttpPath = r.HttpPath ∧ ExtractWarehouseID r.HttpPath = []) := by
  refine ⟨Source.mk r.Name SourceKind client (cleanHttpPath r.HttpPath) r.Catalog r.Schema,
    ?_, rfl, ?_, ?_⟩
  · simp [Config.Initialize, initDatabricksClient, hclient]
  · intro hcase
    show cleanHttpPath r.HttpPath = ExtractWarehouseID r.HttpPath
    by_cases h : r.HttpPath.head? = some '/'
    · rcases hcase with h0 | hc
      · rw [h0] at h
        simp at h
      · obtain ⟨front, id, tail, before, _, _, _, _, hparts⟩ :=
          slash_path_decomposition r.HttpPath h hc
        rw [cleanHttpPath_slash _ h, ExtractWarehouseID_slash _ h, hparts]
        simp
    · rw [cleanHttpPath_no_slash_head _ h, ExtractWarehouseID_no_slash_head _ h]
  · intro hne hall
    show cleanHttpPath r.HttpPath = r.HttpPath ∧ ExtractWarehouseID r.HttpPath = []
    have h : r.HttpPath.head? = some '/' := by
      cases hp : r.HttpPath with
      | nil => exact absurd hp hne
      | cons c cs =>
        have hc : c = '/' := hall c (by simp [hp])
        simp [hc]
    rw [cleanHttpPath_slash _ h, ExtractWarehouseID_slash _ h, parts_all_sep _ '/' hall]
    simp [lastPart]

/-- Witness of the stored connection target on `/sql/1.0/warehouses/84c487324df116f0`. -/
theorem Initialize_HttpPath_witness :
    ∃ src, Config.Initialize (newClientOk select1Response)
        (sourceConfig "/sql/1.0/warehouses/84c487324df116f0".toList) = .ok src ∧
      src.GetHttpPath = "84c487324df116f0".toList := by
  obtain ⟨src, h1, h2, _, _⟩ := Initialize_HttpPath (newClientOk select1Response)
    (sourceConfig "/sql/1.0/warehouses/84c487324df116f0".toList) (answering select1Response) rfl
  refine ⟨src, h1, ?_⟩
  rw [h2]
  decide

/-! ## Lemmas on the row conversion -/

namespace Databricks

theorem RowMap.set_of_not_key (m : RowMap) (k : GoString) (v : Value)
    (h : ∀ kv ∈ m, kv.1 ≠ k) : RowMap.set m k v = m ++ [(k, v)] := by
  induction m with
  | nil => rfl
  | cons kv rest ih =>
    obtain ⟨k0, v0⟩ := kv
    have h0 : k0 ≠ k := h (k0, v0) (by simp)
    have hr : ∀ x ∈ rest, x.1 ≠ k := fun x hx => h x (List.mem_cons_of_mem _ hx)
    simp [RowMap.set, h0, ih hr]

theorem buildRowMap_loop (row : List Value) (columns : List ColumnInfo) (n : Nat) (acc : RowMap)
    (hd : (columns.map (fun col => col.Name)).Nodup)
    (hacc : ∀ kv ∈ acc, ∀ col ∈ columns, kv.1 ≠ col.Name) :
    (columns.enumFrom n).foldl
        (fun rowMap ic => match row.get? ic.1 with
          | some cell => RowMap.set rowMap ic.2.Name cell
          | none => rowMap)
        acc
      = acc ++ List.zip (columns.map (fun col => col.Name)) (row.drop n) := by
  induction columns generalizing n acc with
  | nil => simp
  | cons col rest ih =>
    rw [List.map_cons] at hd
    have hd1 : (rest.map (fun col => col.Name)).Nodup := (List.nodup_cons.1 hd).2
    have hnot : ∀ c ∈ rest, col.Name ≠ c.Name := by
      intro c hc e
      have hm : c.Name ∈ rest.map (fun col => col.Name) :=
        List.mem_map_of_mem (fun col => col.Name) hc
      rw [← e] at hm
      exact (List.nodup_cons.1 hd).1 hm
    rw [List.enumFrom_cons, List.foldl_cons]
    cases hget : row.get? n with
    | none =>
      have hlen : row.length ≤ n := by
        rw [List.get?_eq_getElem?] at hget
        exact List.getElem?_eq_none_iff.1 hget
      have hdrop : row.drop n = [] := List.drop_eq_nil_of_le hlen
      have hdrop1 : row.drop (n + 1) = [] := List.drop_eq_nil_of_le (by omega)
      have e := ih (n + 1) acc hd1
        (fun kv hkv c hc => hacc kv hkv c (List.mem_cons_of_mem _ hc))
      simp only [hdrop1, List.zip_nil_right, List.append_nil] at e
      simp only [hdrop, List.zip_nil_right, List.append_nil]
      exact e
    | some cell =>
      rw [List.get?_eq_getElem?] at hget
      obtain ⟨hlt, hcell⟩ := List.getElem?_eq_some_iff.1 hget
      have hdrop : row.drop n = cell :: row.drop (n + 1) := by
        rw [← hcell]
        exact List.drop_eq_getElem_cons hlt
      have hset : RowMap.set acc col.Name cell = acc ++ [(col.Name, cell)] :=
        RowMap.set_of_not_key acc col.Name cell (fun kv hkv => hacc kv hkv col (by simp))
      have e := ih (n + 1) (acc ++ [(col.Name, cell)]) hd1 (by
        intro kv hkv c hc
        rcases List.mem_append.1 hkv with h1 | h1
        · exact hacc kv h1 c (List.mem_cons_of_mem _ hc)
        · simp only [List.mem_singleton] at h1
          rw [h1]
          exact hnot c hc)
      simp only [hset, hdrop, List.map_cons, List.zip_cons_cons]
      rw [e]
      simp

/-- With pairwise distinct column names a record is the pairing of the names
with the cells, cut at the shorter of the two. -/
theorem buildRowMap_eq_zip (columns : List ColumnInfo) (row : List Value)
    (hd : (columns.map (fun col => col.Name)).Nodup) :
    buildRowMap columns row = List.zip (columns.map (fun col => col.Name)) row := by
  have e := buildRowMap_loop row columns 0 [] hd (by simp)
  simpa [buildRowMap, List.enum] using e

theorem convertRows_loop (columns : List ColumnInfo) (rows : List (List Value))
    (acc : List RowMap) :
    rows.foldl (fun recs row => recs ++ [buildRowMap columns row]) acc
      = acc ++ rows.map (buildRowMap columns) := by
  induction rows generalizing acc with
  | nil => simp
  | cons row rest ih => simp [ih]

theorem convertRows_present (columns : List ColumnInfo) (rows : List (List Value)) :
    convertRows { Manifest := some { Schema := some { Columns := columns } },
                  Result := some { DataArray := some rows } }
      = rows.map (buildRowMap columns) := by
  simp [convertRows, convertRows_loop]

theorem get_zip_some (names : List GoString) (row : List Value) (hd : names.Nodup)
    (i : Nat) (k : GoString) (v : Value) (hk : names[i]? = some k) (hv : row[i]? = some v) :
    RowMap.get (List.zip names row) k = some v := by
  induction names generalizing row i with
  | nil => simp at hk
  | cons name rest ih =>
    cases row with
    | nil => simp at hv
    | cons cell cells =>
      cases i with
      | zero =>
        simp only [List.getElem?_cons_zero, Option.some.injEq] at hk hv
        simp [RowMap.get, hk, hv]
      | succ i =>
        simp only [List.getElem?_cons_succ] at hk hv
        have hne : name ≠ k := by
          intro e
          have hmem : k ∈ rest := List.getElem?_mem hk
          exact (List.nodup_cons.1 hd).1 (e ▸ hmem)
        simp only [List.zip_cons_cons, RowMap.get, hne, if_false]
        exact ih cells (List.nodup_cons.1 hd).2 i hk hv

theorem get_zip_key (names : List GoString) (row : List Value) (k : GoString) (v : Value)
    (h : RowMap.get (List.zip names row) k = some v) :
    ∃ i : Nat, names[i]? = some k ∧ row[i]? = some v := by
  induction names generalizing row with
  | nil => simp [RowMap.get] at h
  | cons name rest ih =>
    cases row with
    | nil => simp [RowMap.get] at h
    | cons cell cells =>
      simp only [List.zip_cons_cons, RowMap.get] at h
      by_cases hk : name = k
      · simp only [hk, if_true, Option.some.injEq] at h
        refine ⟨0, ?_, ?_⟩ <;> simp [hk, h]
      · simp only [hk, if_false] at h
        obtain ⟨i, h1, h2⟩ := ih cells h
        exact ⟨i + 1, by simpa using h1, by simpa using h2⟩

theorem ExecuteSQL_result_ok (s : Source) (statement : GoString) (params : List Value)
    (resp : StatementResponse) (hs : s.HttpPath ≠ [])
    (hresp : ∀ req ∈ (s.ExecuteSQL statement params).sent, s.Client req = .ok resp) :
    (s.ExecuteSQL statement params).result = .ok (convertRows resp) := by
  obtain ⟨req, _, _, _, _, h5, h6⟩ := ExecuteSQL_nonempty s statement params hs
  have hc : s.Client req = .ok resp := hresp req (by simp [h5])
  rw [h6]
  simp only [hc]

end Databricks

/-- C7: for a successful response with schema columns of pairwise distinct
names and data rows, `Source.ExecuteSQL` returns no error and exactly one
record per row, in the order of the rows; the record of a row maps the name
of column `i` to cell `i` of the row for every index `i` present in both, and
has no other key, whatever the length of the row.  Schema `[test]` with the
single row `[1]` gives the single record mapping `test` to `1`. -/
theorem rows_are_paired_positionally (s : Source) (statement : GoString) (params : List Value)
    (columns : List ColumnInfo) (rows : List (List Value)) (hs : s.HttpPath ≠ [])
    (hresp : ∀ req ∈ (s.ExecuteSQL statement params).sent,
      s.Client req = .ok { Manifest := some { Schema := some { Columns := columns } },
                           Result := some { DataArray := some rows } })
    (hd : (columns.map (fun col => col.Name)).Nodup) :
    (∃ recs, (s.ExecuteSQL statement params).result = .ok recs ∧ recs.length = rows.length ∧
      ∀ (j : Nat) (record : RowMap) (row : List Value),
        recs[j]? = some record → rows[j]? = some row →
        (∀ (i : Nat) (col : ColumnInfo) (cell : Value),
          columns[i]? = some col → row[i]? = some cell → record.get col.Name = some cell) ∧
        (∀ (key : GoString) (cell : Value), record.get key = some cell →
          ∃ (i : Nat) (col : ColumnInfo),
            columns[i]? = some col ∧ row[i]? = some cell ∧ col.Name = key)) ∧
    ((sourceAnswering select1Response).ExecuteSQL "SELECT 1 AS test".toList []).result
      = .ok [[("test".toList, .int 1)]] := by
  refine ⟨⟨rows.map (buildRowMap columns), ?_, by simp, ?_⟩, rfl⟩
  · rw [ExecuteSQL_result_ok s statement params _ hs hresp, convertRows_present]
  · intro j record row hrec hrow
    have hrecord : record = List.zip (columns.map (fun col => col.Name)) row := by
      rw [List.getElem?_map, hrow] at hrec
      simp only [Option.map_some', Option.some.injEq] at hrec
      rw [← hrec, buildRowMap_eq_zip columns row hd]
    subst hrecord
    constructor
    · intro i col cell hcol hcell
      exact get_zip_some _ row hd i col.Name cell (by simp [List.getElem?_map, hcol]) hcell
    · intro key cell hget
      obtain ⟨i, h1, h2⟩ := get_zip_key _ row key cell hget
      rw [List.getElem?_map] at h1
      cases hcol : columns[i]? with
      | none => simp [hcol] at h1
      | some col =>
        simp only [hcol, Option.map_some', Option.some.injEq] at h1
        exact ⟨i, col, hcol, h2, h1⟩

/-- Witness of C7 on two columns with a short and a long row. -/
theorem rows_are_paired_positionally_witness :
    (∃ recs, ((sourceAnswering raggedResponse).ExecuteSQL "SELECT a, b FROM t".toList []).result
        = .ok recs ∧ recs.length = 2 ∧
      ∀ (j : Nat) (record : RowMap) (row : List Value),
        recs[j]? = some record → [[Value.int 1], [.int 2, .int 3, .int 4]][j]? = some row →
        (∀ (i : Nat) (col : ColumnInfo) (cell : Value),
          [ColumnInfo.mk "a".toList, ColumnInfo.mk "b".toList][i]? = some col →
          row[i]? = some cell → record.get col.Name = some cell) ∧
        (∀ (key : GoString) (cell : Value), record.get key = some cell →
          ∃ (i : Nat) (col : ColumnInfo),
            [ColumnInfo.mk "a".toList, ColumnInfo.mk "b".toList][i]? = some col ∧
            row[i]? = some cell ∧ col.Name = key)) ∧
    ((sourceAnswering select1Response).ExecuteSQL "SELECT 1 AS test".toList []).result
      = .ok [[("test".toList, .int 1)]] :=
  rows_are_paired_positionally (sourceAnswering raggedResponse) "SELECT a, b FROM t".toList []
    [ColumnInfo.mk "a".toList, ColumnInfo.mk "b".toList]
    [[Value.int 1], [.int 2, .int 3, .int 4]] (by decide) (fun _ _ => rfl) (by decide)

/-- C8 as stated fails: for a successful response whose schema has no columns
and whose data has two rows, `Source.ExecuteSQL` returns two empty records,
not the empty result sequence. -/
theorem no_columns_gives_one_empty_record_per_row :
    noColumnsResponse.Manifest = some { Schema := some { Columns := [] } } ∧
    ((sourceAnswering noColumnsResponse).ExecuteSQL "SELECT 1".toList []).result
      = .ok [[], []] ∧
    ((sourceAnswering noColumnsResponse).ExecuteSQL "SELECT 1".toList []).result ≠ .ok [] := by
  refine ⟨rfl, rfl, ?_⟩
  intro h
  have e : ((sourceAnswering noColumnsResponse).ExecuteSQL "SELECT 1".toList []).result
      = .ok [[], []] := rfl
  rw [e] at h
  simp at h

/-- C8, amended: for a successful response whose result, manifest or schema
is absent, or whose row data is absent or empty, `Source.ExecuteSQL` returns
the empty result sequence and no error; when the schema is present and has
no columns it returns, with no error, one empty record per data row, which
is the empty sequence exactly when there is no row. -/
theorem absent_schema_or_rows_give_empty_result (s : Source) (statement : GoString)
    (params : List Value) (resp : StatementResponse) (hs : s.HttpPath ≠ [])
    (hresp : ∀ req ∈ (s.ExecuteSQL statement params).sent, s.Client req = .ok resp) :
    ((resp.Result = none ∨ resp.Manifest = none ∨
        (∃ m, resp.Manifest = some m ∧ m.Schema = none) ∨
        (∃ r, resp.Result = some r ∧ (r.DataArray = none ∨ r.DataArray = some []))) →
      (s.ExecuteSQL statement params).result = .ok []) ∧
    (∀ rows, resp = { Manifest := some { Schema := some { Columns := [] } },
                      Result := some { DataArray := some rows } } →
      (s.ExecuteSQL statement params).result = .ok (rows.map (fun _ => []))) := by
  rw [ExecuteSQL_result_ok s statement params resp hs hresp]
  constructor
  · intro h
    congr 1
    obtain ⟨manifest, result⟩ := resp
    rcases h with h | h | ⟨m, h1, h2⟩ | ⟨r, h1, h2⟩
    · simp only at h
      subst h
      cases manifest <;> rfl
    · simp only at h
      subst h
      cases result <;> rfl
    · simp only at h1
      subst h1
      cases result with
      | none => rfl
      | some r =>
        obtain ⟨schema⟩ := m
        simp only at h2
        subst h2
        cases r with
        | mk data => cases data <;> rfl
    · simp only at h1
      subst h1
      cases manifest with
      | none => rfl
      | some m =>
        obtain ⟨data⟩ := r
        obtain ⟨schema⟩ := m
        simp only at h2
        rcases h2 with h2 | h2
        · subst h2
          rfl
        · subst h2
          cases schema <;> rfl
  · intro rows h
    rw [h, convertRows_present]
    congr 1

/-- Witness of the amended C8 on a response without manifest and result. -/
theorem absent_schema_or_rows_give_empty_result_witness :
    ((sourceAnswering { Manifest := none, Result := none }).ExecuteSQL
        "SELECT 1".toList []).result = .ok [] :=
  (absent_schema_or_rows_give_empty_result (sourceAnswering { Manifest := none, Result := none })
    "SELECT 1".toList [] { Manifest := none, Result := none } (by decide)
    (fun _ _ => rfl)).1 (Or.inl rfl)

/-- C9: with an empty `HttpPath`, `Source.ExecuteSQL` returns the error
`warehouse ID cannot be empty` for every statement and every parameter
sequence, and hands no request to the warehouse client. -/
theorem empty_warehouse_id_fails_before_any_request (s : Source) (statement : GoString)
    (params : List Value) (h : s.HttpPath = []) :
    (s.ExecuteSQL statement params).result = .error "warehouse ID cannot be empty".toList ∧
    (s.ExecuteSQL statement params).sent = [] := by
  unfold Source.ExecuteSQL
  simp [h]

/-- Witness of C9 on a source whose warehouse identifier is empty. -/
theorem empty_warehouse_id_fails_before_any_request_witness :
    (Source.ExecuteSQL (Source.mk [] [] (answering select1Response) [] [] [])
        "SELECT ?".toList [.int 1]).result = .error "warehouse ID cannot be empty".toList ∧
    (Source.ExecuteSQL (Source.mk [] [] (answering select1Response) [] [] [])
        "SELECT ?".toList [.int 1]).sent = [] :=
  empty_warehouse_id_fails_before_any_request
    (Source.mk [] [] (answering select1Response) [] [] []) "SELECT ?".toList [.int 1] rfl

namespace Databricks

theorem cleanHttpPath_ne_nil (httpPath : GoString) (h : httpPath ≠ []) :
    cleanHttpPath httpPath ≠ [] := by
  by_cases hh : httpPath.head? = some '/'
  · rw [cleanHttpPath_slash _ hh]
    by_cases hp : (nonEmptyParts (Split httpPath '/')).length > 0
    · simp only [hp, if_true]
      have hne : nonEmptyParts (Split httpPath '/') ≠ [] := List.length_pos.1 hp
      exact (mem_nonEmptyParts _ _ (lastPart_mem _ hne)).2
    · simp only [hp, if_false]
      exact h
  · rw [cleanHttpPath_no_slash_head _ hh]
    exact h

theorem free_form_Invoke_string (t : Databricksexecutesql.Tool) (sql : GoString)
    (more : List Value) :
    ∃ out, t.Invoke (.str sql :: more) = some out ∧
      out.sent = (Source.ExecuteSQL
        (Source.mk [] [] t.Client (cleanHttpPath t.HttpPath) t.Catalog t.Schema) sql []).sent := by
  unfold Databricksexecutesql.Tool.Invoke
  simp only
  split
  · exact ⟨_, rfl, rfl⟩
  · exact ⟨_, rfl, rfl⟩

end Databricks

/-- C10: the free-form tool substitutes nothing.  With a non-empty warehouse
identifier, `Invoke` of the `databricks-execute-sql` tool on the parameter
sequence `[q]` sends one request whose statement is exactly `q`, also when
`q` contains `?`; and `Source.ExecuteSQL` with an empty (or nil) parameter
sequence sends its statement unchanged. -/
theorem free_form_sends_the_text_unchanged (t : Databricksexecutesql.Tool) (s : Source)
    (q statement : GoString) (ht : t.HttpPath ≠ []) (hs : s.HttpPath ≠ []) :
    (∃ out, t.Invoke [.str q] = some out ∧ out.statements = [q]) ∧
    (s.ExecuteSQL statement []).statements = [statement] := by
  constructor
  · obtain ⟨out, h1, h2⟩ := free_form_Invoke_string t q []
    refine ⟨out, h1, ?_⟩
    have e := ExecuteSQL_statements
      (Source.mk [] [] t.Client (cleanHttpPath t.HttpPath) t.Catalog t.Schema) q []
      (cleanHttpPath_ne_nil _ ht)
    simp only [Outcome.statements] at e ⊢
    rw [h2]
    simpa using e
  · rw [ExecuteSQL_statements s _ _ hs]
    simp

/-- Witness of C10 on a text with two `?`. -/
theorem free_form_sends_the_text_unchanged_witness :
    (∃ out, (freeFormTool "/sql/1.0/warehouses/84c487324df116f0".toList select1Response).Invoke
        [.str "SELECT ? AS a, '?' AS b".toList] = some out ∧
      out.statements = ["SELECT ? AS a, '?' AS b".toList]) ∧
    ((sourceAnswering select1Response).ExecuteSQL "SELECT ?".toList []).statements
      = ["SELECT ?".toList] :=
  free_form_sends_the_text_unchanged
    (freeFormTool "/sql/1.0/warehouses/84c487324df116f0".toList select1Response)
    (sourceAnswering select1Response) "SELECT ? AS a, '?' AS b".toList "SELECT ?".toList
    (by decide) (by decide)

/-! ## Lemmas on the literals of integers -/

namespace Databricks

theorem digitChar_ne_quote : ∀ m, m < 10 → Nat.digitChar m ≠ quoteChar ∧ Nat.digitChar m ≠ '?' := by
  decide

theorem toDigitsCore_plain (fuel n : Nat) (ds : List Char)
    (h : ∀ c ∈ ds, c ≠ quoteChar ∧ c ≠ '?') :
    ∀ c ∈ Nat.toDigitsCore 10 fuel n ds, c ≠ quoteChar ∧ c ≠ '?' := by
  induction fuel generalizing n ds with
  | zero => simpa [Nat.toDigitsCore] using h
  | succ fuel ih =>
    have hd : ∀ c ∈ Nat.digitChar (n % 10) :: ds, c ≠ quoteChar ∧ c ≠ '?' := by
      intro c hc
      rcases List.mem_cons.1 hc with h1 | h1
      · rw [h1]
        exact digitChar_ne_quote (n % 10) (Nat.mod_lt _ (by decide))
      · exact h c h1
    unfold Nat.toDigitsCore
    by_cases h0 : n / 10 = 0
    · simpa [h0] using hd
    · simp only [h0, if_false]
      exact ih (n / 10) _ hd

/-- The decimal text of an integer holds neither a single quote nor a `?`. -/
theorem fmtInt_plain (i : Int) : ∀ c ∈ fmtInt i, c ≠ quoteChar ∧ c ≠ '?' := by
  have hdig : ∀ c ∈ Nat.toDigits 10 i.natAbs, c ≠ quoteChar ∧ c ≠ '?' :=
    toDigitsCore_plain _ _ [] (by simp)
  unfold fmtInt
  by_cases hneg : i < 0
  · simp only [hneg, if_true]
    intro c hc
    rcases List.mem_cons.1 hc with h1 | h1
    · rw [h1]
      decide
    · exact hdig c h1
  · simp only [hneg, if_false]
    exact hdig

theorem ExecuteSQL_one_value (s : Source) (front back : GoString) (p : Value)
    (hs : s.HttpPath ≠ []) (hf : '?' ∉ front) :
    (s.ExecuteSQL (front ++ '?' :: back) [p]).statements = [front ++ literal p ++ back] := by
  rw [ExecuteSQL_statements s _ _ hs]
  simp [bindParam_eq, Replace_first front back '?' _ hf]

end Databricks

/-- C11: for a statement containing a `?`, binding an `int` or `int64`
replaces the first `?` by the decimal text of the integer, binding a boolean
replaces it by `true` or `false`, and binding nil replaces it by `NULL`; the
text before and after the `?` is unchanged and the replacement holds no
single quote. -/
theorem integers_booleans_and_nil_are_rendered_unwrapped (s : Source) (statement : GoString)
    (i : Int) (b : Bool) (hs : s.HttpPath ≠ []) (hq : '?' ∈ statement) :
    (∃ front back, statement = front ++ '?' :: back ∧ '?' ∉ front ∧
      (s.ExecuteSQL statement [.int i]).statements = [front ++ fmtInt i ++ back] ∧
      (s.ExecuteSQL statement [.int64 i]).statements = [front ++ fmtInt i ++ back] ∧
      (s.ExecuteSQL statement [.bool b]).statements
        = [front ++ (if b then "true".toList else "false".toList) ++ back] ∧
      (s.ExecuteSQL statement [.nil]).statements = [front ++ "NULL".toList ++ back]) ∧
    quoteChar ∉ fmtInt i ∧
    (fmtInt i = if i < 0 then '-' :: Nat.toDigits 10 i.natAbs else Nat.toDigits 10 i.natAbs) ∧
    fmtInt 42 = "42".toList ∧ fmtInt 0 = "0".toList ∧ fmtInt (-7) = "-7".toList ∧
    quoteChar ∉ "true".toList ∧ quoteChar ∉ "false".toList ∧ quoteChar ∉ "NULL".toList := by
  refine ⟨?_, fun hm => (fmtInt_plain i _ hm).1 rfl, rfl, by decide, by decide, by decide,
    by decide, by decide, by decide⟩
  obtain ⟨front, back, e, hf⟩ := exists_first '?' statement hq
  refine ⟨front, back, e, hf, ?_, ?_, ?_, ?_⟩
  · rw [e, ExecuteSQL_one_value s front back _ hs hf]
    rfl
  · rw [e, ExecuteSQL_one_value s front back _ hs hf]
    rfl
  · rw [e, ExecuteSQL_one_value s front back _ hs hf]
    rfl
  · rw [e, ExecuteSQL_one_value s front back _ hs hf]
    rfl

/-- Witness of C11 on `SELECT * FROM t WHERE n = ? AND m = ?` with the integer -12. -/
theorem integers_booleans_and_nil_are_rendered_unwrapped_witness :
    (sourceAnswering select1Response).HttpPath ≠ [] ∧
    '?' ∈ "SELECT * FROM t WHERE n = ? AND m = ?".toList ∧
    ((∃ front back, "SELECT * FROM t WHERE n = ? AND m = ?".toList = front ++ '?' :: back ∧
      '?' ∉ front ∧
      ((sourceAnswering select1Response).ExecuteSQL
          "SELECT * FROM t WHERE n = ? AND m = ?".toList [.int (-12)]).statements
        = [front ++ fmtInt (-12) ++ back] ∧
      ((sourceAnswering select1Response).ExecuteSQL
          "SELECT * FROM t WHERE n = ? AND m = ?".toList [.int64 (-12)]).statements
        = [front ++ fmtInt (-12) ++ back] ∧
      ((sourceAnswering select1Response).ExecuteSQL
          "SELECT * FROM t WHERE n = ? AND m = ?".toList [.bool true]).statements
        = [front ++ (if true then "true".toList else "false".toList) ++ back] ∧
      ((sourceAnswering select1Response).ExecuteSQL
          "SELECT * FROM t WHERE n = ? AND m = ?".toList [.nil]).statements
        = [front ++ "NULL".toList ++ back]) ∧
    quoteChar ∉ fmtInt (-12) ∧
    (fmtInt (-12) = if (-12 : Int) < 0 then '-' :: Nat.toDigits 10 (-12 : Int).natAbs
      else Nat.toDigits 10 (-12 : Int).natAbs) ∧
    fmtInt 42 = "42".toList ∧ fmtInt 0 = "0".toList ∧ fmtInt (-7) = "-7".toList ∧
    quoteChar ∉ "true".toList ∧ quoteChar ∉ "false".toList ∧ quoteChar ∉ "NULL".toList) :=
  ⟨by decide, by decide,
    integers_booleans_and_nil_are_rendered_unwrapped (sourceAnswering select1Response)
      "SELECT * FROM t WHERE n = ? AND m = ?".toList (-12) true (by decide) (by decide)⟩

namespace Databricks

theorem fmtQArray_single (quote : GoString → GoString) (x : GoString) :
    fmtQArray quote [x] = '[' :: quote x ++ [']'] := by
  simp [fmtQArray, List.intercalate]

end Databricks

/-- C12: for both tool kinds `Config.Initialize` returns an error, and no
Tool, when `cfg.Source` is not a key of the sources map, with the message
`no source named <%q of cfg.Source> configured`, and when the named source
lacks the four accessors, with the message
`invalid source for <%q of the tool kind> tool: source kind must be one of [<%q of databricks>]`;
the templated tool's `Initialize` returns an error in no other case.  With
`%q` on plain text the messages read `no source named "my-databricks" configured`
and `invalid source for "databricks-sql" tool: source kind must be one of ["databricks"]`. -/
theorem Initialize_fails_fast_on_a_wrong_source (quote : GoString → GoString)
    (srcs : GoString → Option AnySource) (tcfg : Databrickssql.Config)
    (fcfg : Databricksexecutesql.Config) :
    (srcs tcfg.Source = none →
      Databrickssql.Config.Initialize quote tcfg srcs
        = .error ("no source named ".toList ++ quote tcfg.Source ++ " configured".toList)) ∧
    (srcs fcfg.Source = none →
      Databricksexecutesql.Config.Initialize quote fcfg srcs
        = .error ("no source named ".toList ++ quote fcfg.Source ++ " configured".toList)) ∧
    (∀ rawS, srcs tcfg.Source = some rawS → rawS.compatible = none →
      Databrickssql.Config.Initialize quote tcfg srcs
        = .error ("invalid source for ".toList ++ quote Databrickssql.ToolKind
            ++ " tool: source kind must be one of ".toList
            ++ ('[' :: quote "databricks".toList ++ [']']))) ∧
    (∀ rawS, srcs fcfg.Source = some rawS → rawS.compatible = none →
      Databricksexecutesql.Config.Initialize quote fcfg srcs
        = .error ("invalid source for ".toList ++ quote Databricksexecutesql.ToolKind
            ++ " tool: source kind must be one of ".toList
            ++ ('[' :: quote "databricks".toList ++ [']']))) ∧
    (∀ err, Databrickssql.Config.Initialize quote tcfg srcs = .error err →
      srcs tcfg.Source = none ∨
      ∃ rawS, srcs tcfg.Source = some rawS ∧ rawS.compatible = none) ∧
    Databrickssql.Config.Initialize plainQuote (templatedConfig "SELECT 1".toList) (fun _ => none)
      = .error ("no source named ".toList ++ '"' :: "my-databricks".toList
          ++ '"' :: " configured".toList) ∧
    Databrickssql.Config.Initialize plainQuote (templatedConfig "SELECT 1".toList)
        (sourcesWith "my-databricks".toList (incompatibleSource "postgres".toList))
      = .error ("invalid source for ".toList ++ '"' :: "databricks-sql".toList
          ++ '"' :: " tool: source kind must be one of [".toList
          ++ '"' :: "databricks".toList ++ ['"', ']']) ∧
    Databricksexecutesql.Config.Initialize plainQuote freeFormConfig
        (sourcesWith "my-databricks".toList (incompatibleSource "postgres".toList))
      = .error ("invalid source for ".toList ++ '"' :: "databricks-execute-sql".toList
          ++ '"' :: " tool: source kind must be one of [".toList
          ++ '"' :: "databricks".toList ++ ['"', ']']) := by
  refine ⟨?_, ?_, ?_, ?_, ?_, rfl, rfl, rfl⟩
  · intro h
    simp [Databrickssql.Config.Initialize, h]
  · intro h
    simp [Databricksexecutesql.Config.Initialize, h]
  · intro rawS h1 h2
    simp [Databrickssql.Config.Initialize, h1, h2, fmtQArray_single, compatibleSources, SourceKind]
  · intro rawS h1 h2
    simp [Databricksexecutesql.Config.Initialize, h1, h2, fmtQArray_single, compatibleSources,
      SourceKind]
  · intro err herr
    cases h1 : srcs tcfg.Source with
    | none => exact Or.inl rfl
    | some rawS =>
      refine Or.inr ⟨rawS, rfl, ?_⟩
      cases h2 : rawS.compatible with
      | none => rfl
      | some cs => simp [Databrickssql.Config.Initialize, h1, h2] at herr

/-- Witness of C12 on an empty sources map and on a map holding a source
without the accessors. -/
theorem Initialize_fails_fast_on_a_wrong_source_witness :
    Databrickssql.Config.Initialize plainQuote (templatedConfig "SELECT 1".toList) (fun _ => none)
      = .error ("no source named ".toList ++ plainQuote "my-databricks".toList
          ++ " configured".toList) ∧
    Databricksexecutesql.Config.Initialize plainQuote freeFormConfig
        (sourcesWith "my-databricks".toList (incompatibleSource "postgres".toList))
      = .error ("invalid source for ".toList ++ plainQuote Databricksexecutesql.ToolKind
          ++ " tool: source kind must be one of ".toList
          ++ ('[' :: plainQuote "databricks".toList ++ [']'])) :=
  ⟨(Initialize_fails_fast_on_a_wrong_source plainQuote (fun _ => none)
      (templatedConfig "SELECT 1".toList) freeFormConfig).1 rfl,
    (Initialize_fails_fast_on_a_wrong_source plainQuote
      (sourcesWith "my-databricks".toList (incompatibleSource "postgres".toList))
      (templatedConfig "SELECT 1".toList) freeFormConfig).2.2.2.1
      (incompatibleSource "postgres".toList) rfl rfl⟩

set_option maxRecDepth 8000 in
/-- C13 as stated fails: a source of kind `postgres` without the accessors
makes `Config.Initialize` of both tools fail with a message in which
`postgres` does not occur. -/
theorem incompatible_source_error_omits_the_offending_kind :
    (∃ msg, Databrickssql.Config.Initialize plainQuote (templatedConfig "SELECT 1".toList)
        (sourcesWith "my-databricks".toList (incompatibleSource "postgres".toList)) = .error msg ∧
      ¬ ("postgres".toList <:+: msg)) ∧
    (∃ msg, Databricksexecutesql.Config.Initialize plainQuote freeFormConfig
        (sourcesWith "my-databricks".toList (incompatibleSource "postgres".toList)) = .error msg ∧
      ¬ ("postgres".toList <:+: msg)) :=
  ⟨⟨_, rfl, fun h => absurd (h.subset (by decide : 'p' ∈ "postgres".toList)) (by decide)⟩,
    ⟨_, rfl, fun h => absurd (h.subset (by decide : 'p' ∈ "postgres".toList)) (by decide)⟩⟩

/-- C13, amended: when the configured source name resolves to a source
lacking the capability set, the error of `Config.Initialize` names the tool
kind and the compatible source kind `databricks`, and is the same message
whatever the kind of the offending source. -/
theorem incompatible_source_error_names_tool_kind_and_required_kind
    (quote : GoString → GoString) (srcs : GoString → Option AnySource)
    (tcfg : Databrickssql.Config) (fcfg : Databricksexecutesql.Config) (rawT rawF : AnySource)
    (hT : srcs tcfg.Source = some rawT) (hF : srcs fcfg.Source = some rawF)
    (hTc : rawT.compatible = none) (hFc : rawF.compatible = none) :
    ∃ msgT msgF,
      Databrickssql.Config.Initialize quote tcfg srcs = .error msgT ∧
      Databricksexecutesql.Config.Initialize quote fcfg srcs = .error msgF ∧
      msgT = "invalid source for ".toList ++ quote Databrickssql.ToolKind
        ++ " tool: source kind must be one of [".toList ++ quote SourceKind ++ [']'] ∧
      msgF = "invalid source for ".toList ++ quote Databricksexecutesql.ToolKind
        ++ " tool: source kind must be one of [".toList ++ quote SourceKind ++ [']'] ∧
      quote Databrickssql.ToolKind <:+: msgT ∧ quote SourceKind <:+: msgT ∧
      quote Databricksexecutesql.ToolKind <:+: msgF ∧ quote SourceKind <:+: msgF := by
  refine ⟨_, _, ?_, ?_, rfl, rfl, ?_, ?_, ?_, ?_⟩
  · simp [Databrickssql.Config.Initialize, hT, hTc, fmtQArray_single, compatibleSources]
  · simp [Databricksexecutesql.Config.Initialize, hF, hFc, fmtQArray_single, compatibleSources]
  · exact ⟨"invalid source for ".toList,
      " tool: source kind must be one of [".toList ++ quote SourceKind ++ [']'], by simp⟩
  · exact ⟨"invalid source for ".toList ++ quote Databrickssql.ToolKind
      ++ " tool: source kind must be one of [".toList, [']'], by simp⟩
  · exact ⟨"invalid source for ".toList,
      " tool: source kind must be one of [".toList ++ quote SourceKind ++ [']'], by simp⟩
  · exact ⟨"invalid source for ".toList ++ quote Databricksexecutesql.ToolKind
      ++ " tool: source kind must be one of [".toList, [']'], by simp⟩

/-- Witness of the amended C13 on an incompatible source of kind `postgres`. -/
theorem incompatible_source_error_names_tool_kind_and_required_kind_witness :
    ∃ msgT msgF,
      Databrickssql.Config.Initialize plainQuote (templatedConfig "SELECT 1".toList)
        (sourcesWith "my-databricks".toList (incompatibleSource "postgres".toList))
        = .error msgT ∧
      Databricksexecutesql.Config.Initialize plainQuote freeFormConfig
        (sourcesWith "my-databricks".toList (incompatibleSource "postgres".toList))
        = .error msgF ∧
      msgT = "invalid source for ".toList ++ plainQuote Databrickssql.ToolKind
        ++ " tool: source kind must be one of [".toList ++ plainQuote SourceKind ++ [']'] ∧
      msgF = "invalid source for ".toList ++ plainQuote Databricksexecutesql.ToolKind
        ++ " tool: source kind must be one of [".toList ++ plainQuote SourceKind ++ [']'] ∧
      plainQuote Databrickssql.ToolKind <:+: msgT ∧ plainQuote SourceKind <:+: msgT ∧
      plainQuote Databricksexecutesql.ToolKind <:+: msgF ∧ plainQuote SourceKind <:+: msgF :=
  incompatible_source_error_names_tool_kind_and_required_kind plainQuote
    (sourcesWith "my-databricks".toList (incompatibleSource "postgres".toList))
    (templatedConfig "SELECT 1".toList) freeFormConfig
    (incompatibleSource "postgres".toList) (incompatibleSource "postgres".toList)
    rfl rfl rfl rfl

/-! ## Lemmas on the two `Invoke` methods -/

namespace Databricks

theorem templated_Invoke_result (t : Databrickssql.Tool) (params : List Value) :
    (t.Invoke params).result =
      (match (Source.ExecuteSQL (Source.mk [] [] t.Client t.HttpPath t.Catalog t.Schema)
          t.Statement params).result with
        | .error err => .error ("failed to execute SQL: ".toList ++ err)
        | .ok rows => .ok rows) := by
  unfold Databrickssql.Tool.Invoke
  simp only
  split <;> simp_all

theorem free_form_Invoke_result (t : Databricksexecutesql.Tool) (sql : GoString)
    (more : List Value) :
    ∃ out, t.Invoke (.str sql :: more) = some out ∧
      out.sent = (Source.ExecuteSQL
        (Source.mk [] [] t.Client (cleanHttpPath t.HttpPath) t.Catalog t.Schema) sql []).sent ∧
      out.result =
        (match (Source.ExecuteSQL
            (Source.mk [] [] t.Client (cleanHttpPath t.HttpPath) t.Catalog t.Schema) sql []).result with
          | .error err =>
            .error ("failed to execute SQL with warehouse ID ".toList ++ [quoteChar]
              ++ cleanHttpPath t.HttpPath ++ [quoteChar] ++ ": ".toList ++ err)
          | .ok rows => .ok rows) := by
  unfold Databricksexecutesql.Tool.Invoke
  simp only
  split
  · refine ⟨_, rfl, rfl, ?_⟩
    simp_all
  · refine ⟨_, rfl, rfl, ?_⟩
    simp_all

theorem ExecuteSQL_empty (s : Source) (statement : GoString) (params : List Value)
    (h : s.HttpPath = []) :
    (s.ExecuteSQL statement params).sent = [] ∧
    (s.ExecuteSQL statement params).result = .error "warehouse ID cannot be empty".toList := by
  unfold Source.ExecuteSQL
  simp [h]

theorem ExecuteSQL_sent_fields (s : Source) (statement : GoString) (params : List Value) :
    ∀ req ∈ (s.ExecuteSQL statement params).sent,
      req.WarehouseId = s.HttpPath ∧ req.Catalog = s.Catalog ∧ req.Schema = s.Schema := by
  intro req hreq
  by_cases h : s.HttpPath = []
  · rw [(ExecuteSQL_empty s statement params h).1] at hreq
    simp at hreq
  · obtain ⟨req0, h1, h2, h3, _, h5, _⟩ := ExecuteSQL_nonempty s statement params h
    rw [h5] at hreq
    simp only [List.mem_singleton] at hreq
    rw [hreq]
    exact ⟨h1, h2, h3⟩

theorem ExecuteSQL_result_error (s : Source) (statement : GoString) (params : List Value)
    (err : GoString) (hs : s.HttpPath ≠ [])
    (hresp : ∀ req ∈ (s.ExecuteSQL statement params).sent, s.Client req = .error err) :
    (s.ExecuteSQL statement params).result = .error ("failed to execute SQL: ".toList ++ err) := by
  obtain ⟨req, _, _, _, _, h5, h6⟩ := ExecuteSQL_nonempty s statement params hs
  have hc : s.Client req = .error err := hresp req (by simp [h5])
  rw [h6]
  simp only [hc]

end Databricks

set_option maxRecDepth 8000 in
/-- C14, evaluated where the code departs from it: the templated tool on
warehouse `84c487324df116f0`, whose execute-and-wait call fails with `boom`,
returns from `Invoke` the error
`failed to execute SQL: failed to execute SQL: boom`, in which the warehouse
identifier does not occur; the free-form tool on the same warehouse and
client returns a message that holds both `boom` and the identifier. -/
theorem templated_error_omits_the_warehouse_identifier :
    ((templatedTool "84c487324df116f0".toList "SELECT 1".toList (failing "boom".toList)).Invoke
        []).sent.map (fun req => req.WarehouseId) = ["84c487324df116f0".toList] ∧
    ((templatedTool "84c487324df116f0".toList "SELECT 1".toList (failing "boom".toList)).Invoke
        []).result = .error "failed to execute SQL: failed to execute SQL: boom".toList ∧
    ¬ ("84c487324df116f0".toList
        <:+: "failed to execute SQL: failed to execute SQL: boom".toList) ∧
    (∃ out msg, Databricksexecutesql.Tool.Invoke
        (Databricksexecutesql.Tool.mk [] [] [] (failing "boom".toList)
          "84c487324df116f0".toList [] [])
        [.str "SELECT 1".toList] = some out ∧
      out.result = .error msg ∧ "boom".toList <:+: msg ∧ "84c487324df116f0".toList <:+: msg) := by
  refine ⟨by decide, rfl,
    fun h => absurd (h.subset (by decide : '8' ∈ "84c487324df116f0".toList)) (by decide),
    _, _, rfl, rfl, ?_, ?_⟩
  · exact ⟨"failed to execute SQL with warehouse ID ".toList ++ [quoteChar]
      ++ "84c487324df116f0".toList ++ [quoteChar] ++ ": failed to execute SQL: ".toList, [],
      by decide⟩
  · exact ⟨"failed to execute SQL with warehouse ID ".toList ++ [quoteChar],
      [quoteChar] ++ ": failed to execute SQL: boom".toList, by decide⟩

/-- The part of C14 that holds for every input: an error of the warehouse
call reaches the caller of either `Invoke` with its message inside the
returned message, and the free-form `Invoke` also puts the warehouse
identifier of the attempt into it; with an empty identifier both return a
message holding `warehouse ID cannot be empty`. -/
theorem execution_errors_wrap_the_underlying_message (t : Databrickssql.Tool)
    (f : Databricksexecutesql.Tool) (params more : List Value) (sql err : GoString)
    (ht : ∀ req ∈ (t.Invoke params).sent, t.Client req = .error err)
    (hf : ∀ out, f.Invoke (.str sql :: more) = some out →
      ∀ req ∈ out.sent, f.Client req = .error err) :
    (t.HttpPath ≠ [] → ∃ msg, (t.Invoke params).result = .error msg ∧ err <:+: msg) ∧
    (t.HttpPath = [] → ∃ msg, (t.Invoke params).result = .error msg ∧
      "warehouse ID cannot be empty".toList <:+: msg) ∧
    (f.HttpPath ≠ [] → ∃ out msg req, f.Invoke (.str sql :: more) = some out ∧
      out.sent = [req] ∧ out.result = .error msg ∧ err <:+: msg ∧ req.WarehouseId <:+: msg) ∧
    (f.HttpPath = [] → ∃ out msg, f.Invoke (.str sql :: more) = some out ∧
      out.sent = [] ∧ out.result = .error msg ∧
      "warehouse ID cannot be empty".toList <:+: msg) := by
  refine ⟨?_, ?_, ?_, ?_⟩
  · intro hne
    rw [templated_Invoke_sent] at ht
    have e := ExecuteSQL_result_error
      (Source.mk [] [] t.Client t.HttpPath t.Catalog t.Schema) t.Statement params err hne ht
    refine ⟨"failed to execute SQL: ".toList ++ ("failed to execute SQL: ".toList ++ err),
      ?_, ?_⟩
    · rw [templated_Invoke_result, e]
    · exact ⟨"failed to execute SQL: failed to execute SQL: ".toList, [], by simp⟩
  · intro he
    have e := (ExecuteSQL_empty
      (Source.mk [] [] t.Client t.HttpPath t.Catalog t.Schema) t.Statement params he).2
    refine ⟨"failed to execute SQL: ".toList ++ "warehouse ID cannot be empty".toList, ?_, ?_⟩
    · rw [templated_Invoke_result, e]
    · exact ⟨"failed to execute SQL: ".toList, [], by simp⟩
  · intro hne
    obtain ⟨out, h1, h2, h3⟩ := free_form_Invoke_result f sql more
    have hc := cleanHttpPath_ne_nil _ hne
    obtain ⟨req, e1, _, _, _, e5, _⟩ := ExecuteSQL_nonempty
      (Source.mk [] [] f.Client (cleanHttpPath f.HttpPath) f.Catalog f.Schema) sql [] hc
    have e := ExecuteSQL_result_error
      (Source.mk [] [] f.Client (cleanHttpPath f.HttpPath) f.Catalog f.Schema) sql [] err hc
      (by rw [← h2]; exact hf out h1)
    rw [e] at h3
    refine ⟨out, _, req, h1, by rw [h2, e5], h3, ?_, ?_⟩
    · exact ⟨"failed to execute SQL with warehouse ID ".toList ++ [quoteChar]
        ++ cleanHttpPath f.HttpPath ++ [quoteChar] ++ ": failed to execute SQL: ".toList, [],
        by simp⟩
    · rw [e1]
      exact ⟨"failed to execute SQL with warehouse ID ".toList ++ [quoteChar],
        [quoteChar] ++ ": ".toList ++ ("failed to execute SQL: ".toList ++ err), by simp⟩
  · intro he
    obtain ⟨out, h1, h2, h3⟩ := free_form_Invoke_result f sql more
    have hc : cleanHttpPath f.HttpPath = [] := by
      rw [he]
      rfl
    have e := ExecuteSQL_empty
      (Source.mk [] [] f.Client (cleanHttpPath f.HttpPath) f.Catalog f.Schema) sql [] hc
    rw [e.2] at h3
    refine ⟨out, _, h1, by rw [h2, e.1], h3, ?_⟩
    exact ⟨"failed to execute SQL with warehouse ID ".toList ++ [quoteChar]
      ++ cleanHttpPath f.HttpPath ++ [quoteChar] ++ ": ".toList, [], by simp⟩

/-- Witness of the wrapping on a failing client, for both tools. -/
theorem execution_errors_wrap_the_underlying_message_witness :
    (∃ msg, ((templatedTool "wh".toList "SELECT 1".toList (failing "boom".toList)).Invoke
        []).result = .error msg ∧ "boom".toList <:+: msg) ∧
    (∃ out msg req, Databricksexecutesql.Tool.Invoke
        (Databricksexecutesql.Tool.mk [] [] [] (failing "boom".toList) "wh".toList [] [])
        [.str "SELECT 1".toList] = some out ∧
      out.sent = [req] ∧ out.result = .error msg ∧ "boom".toList <:+: msg ∧
      req.WarehouseId <:+: msg) :=
  ⟨(execution_errors_wrap_the_underlying_message
      (templatedTool "wh".toList "SELECT 1".toList (failing "boom".toList))
      (Databricksexecutesql.Tool.mk [] [] [] (failing "boom".toList) "wh".toList [] [])
      [] [] "SELECT 1".toList "boom".toList (fun _ _ => rfl) (fun _ _ _ _ => rfl)).1
      (by decide),
    (execution_errors_wrap_the_underlying_message
      (templatedTool "wh".toList "SELECT 1".toList (failing "boom".toList))
      (Databricksexecutesql.Tool.mk [] [] [] (failing "boom".toList) "wh".toList [] [])
      [] [] "SELECT 1".toList "boom".toList (fun _ _ => rfl) (fun _ _ _ _ => rfl)).2.2.1
      (by decide)⟩

namespace Databricks

theorem cleanHttpPath_idempotent (httpPath : GoString) :
    cleanHttpPath (cleanHttpPath httpPath) = cleanHttpPath httpPath := by
  by_cases h : httpPath.head? = some '/'
  · by_cases hp : (nonEmptyParts (Split httpPath '/')).length > 0
    · have hne : nonEmptyParts (Split httpPath '/') ≠ [] := List.length_pos.1 hp
      have hm := mem_nonEmptyParts _ _ (lastPart_mem _ hne)
      have hno : '/' ∉ lastPart (nonEmptyParts (Split httpPath '/')) :=
        Split_no_sep httpPath '/' _ hm.1
      have e : cleanHttpPath httpPath = lastPart (nonEmptyParts (Split httpPath '/')) := by
        rw [cleanHttpPath_slash _ h]
        simp [hp]
      rw [e]
      apply cleanHttpPath_no_slash_head
      intro hh
      cases hx : lastPart (nonEmptyParts (Split httpPath '/')) with
      | nil => simp [hx] at hh
      | cons c cs =>
        rw [hx] at hh hno
        simp only [List.head?_cons, Option.some.injEq] at hh
        exact hno (by simp [hh])
    · have e : cleanHttpPath httpPath = httpPath := by
        rw [cleanHttpPath_slash _ h]
        simp [hp]
      rw [e, e]
  · have e : cleanHttpPath httpPath = httpPath := cleanHttpPath_no_slash_head _ h
    rw [e, e]

theorem Initialize_ok_fields
    (newWorkspaceClient : GoString → GoString → Except GoString WorkspaceClient)
    (r : Config) (src : Source) (h : Config.Initialize newWorkspaceClient r = .ok src) :
    src.HttpPath = cleanHttpPath r.HttpPath ∧ src.Catalog = r.Catalog ∧ src.Schema = r.Schema := by
  unfold Config.Initialize at h
  simp only at h
  split at h
  · cases h
  · cases h
    exact ⟨rfl, rfl, rfl⟩

theorem templated_Initialize_on_source (quote : GoString → GoString)
    (cfg : Databrickssql.Config) (srcs : GoString → Option AnySource) (src : Source)
    (h : srcs cfg.Source = some src.toAnySource) :
    Databrickssql.Config.Initialize quote cfg srcs
      = .ok (Databrickssql.Tool.mk cfg.Name Databrickssql.ToolKind cfg.AuthRequired src.Client
          src.HttpPath src.Catalog src.Schema cfg.Statement) := by
  simp [Databrickssql.Config.Initialize, h, Source.toAnySource, Source.DatabricksClient,
    Source.GetHttpPath, Source.GetCatalog, Source.GetSchema]

theorem free_form_Initialize_on_source (quote : GoString → GoString)
    (cfg : Databricksexecutesql.Config) (srcs : GoString → Option AnySource) (src : Source)
    (h : srcs cfg.Source = some src.toAnySource) :
    Databricksexecutesql.Config.Initialize quote cfg srcs
      = if src.HttpPath = [] then
          .error ("warehouse ID is empty for source ".toList ++ quote cfg.Source)
        else
          .ok (Databricksexecutesql.Tool.mk cfg.Name Databricksexecutesql.ToolKind
            cfg.AuthRequired src.Client src.HttpPath src.Catalog src.Schema) := by
  simp [Databricksexecutesql.Config.Initialize, h, Source.toAnySource, Source.DatabricksClient,
    Source.GetHttpPath, Source.GetCatalog, Source.GetSchema]

theorem free_form_Invoke_not_string (t : Databricksexecutesql.Tool) (first : Value)
    (more : List Value) (h : ∀ sql, first ≠ .str sql) :
    t.Invoke (first :: more)
      = some { sent := [],
               result := .error ("unable to cast parameter to string: ".toList ++ fmtV first) } := by
  cases first with
  | str sql => exact absurd rfl (h sql)
  | int i => rfl
  | int64 i => rfl
  | float64 text => rfl
  | bool b => rfl
  | nil => rfl
  | other text => rfl

theorem free_form_Invoke_sent_fields (t : Databricksexecutesql.Tool) (params : List Value)
    (out : Outcome (List RowMap)) (h : t.Invoke params = some out) :
    ∀ req ∈ out.sent, req.WarehouseId = cleanHttpPath t.HttpPath ∧ req.Catalog = t.Catalog ∧
      req.Schema = t.Schema := by
  cases params with
  | nil => simp [Databricksexecutesql.Tool.Invoke] at h
  | cons first more =>
    by_cases hs : ∃ sql, first = .str sql
    · obtain ⟨sql, e⟩ := hs
      obtain ⟨out0, h1, h2, _⟩ := free_form_Invoke_result t sql more
      rw [e, h1] at h
      cases h
      rw [h2]
      exact ExecuteSQL_sent_fields
        (Source.mk [] [] t.Client (cleanHttpPath t.HttpPath) t.Catalog t.Schema) sql []
    · have hn : ∀ sql, first ≠ .str sql := fun sql e => hs ⟨sql, e⟩
      rw [free_form_Invoke_not_string t first more hn] at h
      cases h
      simp

end Databricks

/-- C15: the identifier stored at Source construction is the one every
execution uses.  For a Source built by `Config.Initialize` from `http_path`
`h` and a tool of either kind initialized on it, every request that `Invoke`
sends carries the Source's stored `HttpPath` as warehouse identifier (the
second normalization in the free-form `Invoke` leaves it unchanged) and the
Source's catalog and schema; with a non-empty stored identifier both tools
initialize and each `Invoke` on a string sends one request.  For
`/sql/1.0/warehouses/84c487324df116f0` the free-form tool invoked with
`SELECT 1 AS test` executes against `84c487324df116f0`. -/
theorem stored_identifier_is_used_by_every_execution
    (newWorkspaceClient : GoString → GoString → Except GoString WorkspaceClient)
    (quote : GoString → GoString) (r : Config) (src : Source)
    (srcs : GoString → Option AnySource) (tcfg : Databrickssql.Config)
    (fcfg : Databricksexecutesql.Config)
    (hsrc : Config.Initialize newWorkspaceClient r = .ok src)
    (hT : srcs tcfg.Source = some src.toAnySource)
    (hF : srcs fcfg.Source = some src.toAnySource) :
    (∃ t, Databrickssql.Config.Initialize quote tcfg srcs = .ok t ∧
      ∀ params, ∀ req ∈ (t.Invoke params).sent,
        req.WarehouseId = src.GetHttpPath ∧ req.Catalog = src.GetCatalog ∧
        req.Schema = src.GetSchema) ∧
    (∀ t, Databricksexecutesql.Config.Initialize quote fcfg srcs = .ok t →
      cleanHttpPath t.HttpPath = src.GetHttpPath ∧
      ∀ params out, t.Invoke params = some out → ∀ req ∈ out.sent,
        req.WarehouseId = src.GetHttpPath ∧ req.Catalog = src.GetCatalog ∧
        req.Schema = src.GetSchema) ∧
    (src.GetHttpPath ≠ [] →
      (∃ t, Databrickssql.Config.Initialize quote tcfg srcs = .ok t ∧
        ∀ params, ∃ req, (t.Invoke params).sent = [req]) ∧
      (∃ t, Databricksexecutesql.Config.Initialize quote fcfg srcs = .ok t ∧
        ∀ q more, ∃ out req, t.Invoke (.str q :: more) = some out ∧ out.sent = [req])) ∧
    (∃ src0 t0 out,
      Config.Initialize (newClientOk select1Response)
        (sourceConfig "/sql/1.0/warehouses/84c487324df116f0".toList) = .ok src0 ∧
      Databricksexecutesql.Config.Initialize plainQuote freeFormConfig
        (sourcesWith "my-databricks".toList src0.toAnySource) = .ok t0 ∧
      t0.Invoke [.str "SELECT 1 AS test".toList] = some out ∧
      out.sent = [ExecuteStatementRequest.mk "84c487324df116f0".toList
        "SELECT 1 AS test".toList "my-catalog".toList "my-schema".toList] ∧
      out.result = .ok [[("test".toList, .int 1)]]) := by
  obtain ⟨e1, _, _⟩ := Initialize_ok_fields newWorkspaceClient r src hsrc
  have hidem : cleanHttpPath src.HttpPath = src.HttpPath := by
    rw [e1]
    exact cleanHttpPath_idempotent r.HttpPath
  have hTinit := templated_Initialize_on_source quote tcfg srcs src hT
  have hFinit := free_form_Initialize_on_source quote fcfg srcs src hF
  refine ⟨⟨_, hTinit, ?_⟩, ?_, ?_, ⟨_, _, _, rfl, rfl, rfl, rfl, rfl⟩⟩
  · intro params req hreq
    rw [templated_Invoke_sent] at hreq
    exact ExecuteSQL_sent_fields _ _ _ req hreq
  · intro t ht
    rw [hFinit] at ht
    by_cases hempty : src.HttpPath = []
    · simp [hempty] at ht
    · simp only [hempty, if_false, Except.ok.injEq] at ht
      subst ht
      refine ⟨hidem, ?_⟩
      intro params out hout req hreq
      have hfields := free_form_Invoke_sent_fields _ params out hout req hreq
      simp only at hfields
      rw [hidem] at hfields
      exact hfields
  · intro hne
    have hne0 : src.HttpPath ≠ [] := hne
    have hFok : Databricksexecutesql.Config.Initialize quote fcfg srcs
        = .ok (Databricksexecutesql.Tool.mk fcfg.Name Databricksexecutesql.ToolKind
            fcfg.AuthRequired src.Client src.HttpPath src.Catalog src.Schema) := by
      rw [hFinit]
      simp [hne0]
    refine ⟨⟨_, hTinit, ?_⟩, ⟨_, hFok, ?_⟩⟩
    · intro params
      obtain ⟨req, _, _, _, _, h5, _⟩ := ExecuteSQL_nonempty
        (Source.mk [] [] src.Client src.HttpPath src.Catalog src.Schema) tcfg.Statement params hne0
      exact ⟨req, by rw [templated_Invoke_sent]; exact h5⟩
    · intro q more
      obtain ⟨out, h1, h2, _⟩ := free_form_Invoke_result
        (Databricksexecutesql.Tool.mk fcfg.Name Databricksexecutesql.ToolKind
          fcfg.AuthRequired src.Client src.HttpPath src.Catalog src.Schema) q more
      obtain ⟨req, _, _, _, _, h5, _⟩ := ExecuteSQL_nonempty
        (Source.mk [] [] src.Client (cleanHttpPath src.HttpPath) src.Catalog src.Schema) q []
        (cleanHttpPath_ne_nil _ hne0)
      exact ⟨out, req, h1, by rw [h2]; exact h5⟩

/-- Witness of C15 on the source built from `/sql/1.0/warehouses/84c487324df116f0`. -/
theorem stored_identifier_is_used_by_every_execution_witness :
    ∃ t, Databrickssql.Config.Initialize plainQuote (templatedConfig "SELECT ?".toList)
        (sourcesWith "my-databricks".toList (sourceAnswering select1Response).toAnySource)
        = .ok t ∧
      ∀ params, ∀ req ∈ (t.Invoke params).sent,
        req.WarehouseId = (sourceAnswering select1Response).GetHttpPath ∧
        req.Catalog = (sourceAnswering select1Response).GetCatalog ∧
        req.Schema = (sourceAnswering select1Response).GetSchema :=
  (stored_identifier_is_used_by_every_execution (newClientOk select1Response) plainQuote
    (sourceConfig "/sql/1.0/warehouses/84c487324df116f0".toList)
    (sourceAnswering select1Response)
    (sourcesWith "my-databricks".toList (sourceAnswering select1Response).toAnySource)
    (templatedConfig "SELECT ?".toList) freeFormConfig rfl rfl rfl).1

namespace Databricks

theorem specCollapseQuotes_specDoubleQuotes (v : GoString) :
    specCollapseQuotes (specDoubleQuotes v) = some v := by
  induction v with
  | nil => rfl
  | cons c cs ih =>
    by_cases hc : c = quoteChar
    · simp [specDoubleQuotes, specCollapseQuotes, hc, ih]
    · have e : specDoubleQuotes (c :: cs) = c :: specDoubleQuotes cs := by
        simp [specDoubleQuotes, hc]
      rw [e]
      unfold specCollapseQuotes
      simp [hc, ih]

theorem literal_str (v : GoString) :
    literal (.str v) = quoteChar :: specDoubleQuotes v ++ [quoteChar] := by
  simp [literal, Replace_all_eq_specDoubleQuotes]

end Databricks

/-- C16: the literal that `Source.ExecuteSQL` substitutes for a string `v`
starts and ends with a single quote, and reading its interior left to right
while collapsing each pair of single quotes into one consumes the whole
interior and yields exactly `v`; so two different strings never have the
same literal. -/
theorem string_literal_decodes_back_to_the_value (v w : GoString) :
    (∀ statement, bindParam statement (.str v) = Replace statement '?' (literal (.str v)) 1) ∧
    (∃ interior, literal (.str v) = quoteChar :: interior ++ [quoteChar] ∧
      interior = Replace v quoteChar [quoteChar, quoteChar] (-1) ∧
      specCollapseQuotes interior = some v) ∧
    (literal (.str v) = literal (.str w) → v = w) ∧
    (v ≠ w → literal (.str v) ≠ literal (.str w)) := by
  have hinj : literal (.str v) = literal (.str w) → v = w := by
    intro h
    rw [literal_str, literal_str] at h
    have h1 : specDoubleQuotes v = specDoubleQuotes w := by
      have h2 := List.cons.inj h
      exact List.append_cancel_right h2.2
    have h3 := specCollapseQuotes_specDoubleQuotes v
    rw [h1, specCollapseQuotes_specDoubleQuotes w] at h3
    exact (Option.some.inj h3).symm
  refine ⟨fun statement => bindParam_eq statement _, ?_, hinj, fun hne h => hne (hinj h)⟩
  refine ⟨Replace v quoteChar [quoteChar, quoteChar] (-1), rfl, rfl, ?_⟩
  rw [Replace_all_eq_specDoubleQuotes]
  exact specCollapseQuotes_specDoubleQuotes v

/-- Witness of C16 on `O'Brien` and `O''Brien`. -/
theorem string_literal_decodes_back_to_the_value_witness :
    (∃ interior, literal (.str "O'Brien".toList) = quoteChar :: interior ++ [quoteChar] ∧
      interior = Replace "O'Brien".toList quoteChar [quoteChar, quoteChar] (-1) ∧
      specCollapseQuotes interior = some "O'Brien".toList) ∧
    literal (.str "O'Brien".toList) ≠ literal (.str "O''Brien".toList) :=
  ⟨(string_literal_decodes_back_to_the_value "O'Brien".toList "O''Brien".toList).2.1,
    (string_literal_decodes_back_to_the_value "O'Brien".toList "O''Brien".toList).2.2.2
      (by decide)⟩

/-- C17: the free-form `Invoke` reads only the first parameter value.  The
index expression panics exactly on the empty sequence; on a non-empty
sequence whose first value is not a string it returns the error
`unable to cast parameter to string: <value>` and sends no request; on a
sequence whose first value is a string the remaining values are ignored. -/
theorem free_form_Invoke_reads_only_the_first_value (t : Databricksexecutesql.Tool)
    (params : List Value) :
    (t.Invoke params = none ↔ params = []) ∧
    (∀ first more, params = first :: more → (∀ sql, first ≠ .str sql) →
      t.Invoke params
        = some { sent := [],
                 result := .error ("unable to cast parameter to string: ".toList
                   ++ fmtV first) }) ∧
    (∀ sql more, params = .str sql :: more → t.Invoke params = t.Invoke [.str sql]) ∧
    t.Invoke [.int 5, .str "SELECT 1".toList]
      = some { sent := [],
               result := .error "unable to cast parameter to string: 5".toList } := by
  refine ⟨?_, ?_, ?_, rfl⟩
  · constructor
    · intro h
      cases params with
      | nil => rfl
      | cons first more =>
        by_cases hs : ∃ sql, first = .str sql
        · obtain ⟨sql, e⟩ := hs
          obtain ⟨out, h1, _⟩ := free_form_Invoke_result t sql more
          rw [e, h1] at h
          cases h
        · rw [free_form_Invoke_not_string t first more (fun sql e => hs ⟨sql, e⟩)] at h
          cases h
    · intro h
      rw [h]
      rfl
  · intro first more e hns
    rw [e]
    exact free_form_Invoke_not_string t first more hns
  · intro sql more e
    rw [e]
    rfl

/-- Witness of C17 on a boolean first value and on a string followed by more values. -/
theorem free_form_Invoke_reads_only_the_first_value_witness :
    (freeFormTool "wh".toList select1Response).Invoke [.bool true, .str "SELECT 1".toList]
      = some { sent := [],
               result := .error ("unable to cast parameter to string: ".toList
                 ++ fmtV (.bool true)) } ∧
    (freeFormTool "wh".toList select1Response).Invoke [.str "SELECT 1".toList, .int 3]
      = (freeFormTool "wh".toList select1Response).Invoke [.str "SELECT 1".toList] :=
  ⟨(free_form_Invoke_reads_only_the_first_value (freeFormTool "wh".toList select1Response)
      [.bool true, .str "SELECT 1".toList]).2.1 (.bool true) [.str "SELECT 1".toList] rfl
      (fun _ h => by cases h),
    (free_form_Invoke_reads_only_the_first_value (freeFormTool "wh".toList select1Response)
      [.str "SELECT 1".toList, .int 3]).2.2.1 "SELECT 1".toList [.int 3] rfl⟩

/-- C18: for a compatible source whose `GetHttpPath` returns the empty
string, `Config.Initialize` of the `databricks-execute-sql` tool returns the
error `warehouse ID is empty for source <%q of cfg.Source>` and no Tool,
while `Config.Initialize` of the `databricks-sql` tool succeeds and every
later `Invoke` of that tool sends nothing and returns an error wrapping
`warehouse ID cannot be empty`. -/
theorem empty_warehouse_identifier_fails_at_different_times (quote : GoString → GoString)
    (srcs : GoString → Option AnySource) (tcfg : Databrickssql.Config)
    (fcfg : Databricksexecutesql.Config) (rawT rawF : AnySource) (csT csF : CompatibleSource)
    (hT : srcs tcfg.Source = some rawT) (hTc : rawT.compatible = some csT)
    (hTe : csT.GetHttpPath = [])
    (hF : srcs fcfg.Source = some rawF) (hFc : rawF.compatible = some csF)
    (hFe : csF.GetHttpPath = []) :
    Databricksexecutesql.Config.Initialize quote fcfg srcs
      = .error ("warehouse ID is empty for source ".toList ++ quote fcfg.Source) ∧
    ∃ t, Databrickssql.Config.Initialize quote tcfg srcs = .ok t ∧
      ∀ params, (t.Invoke params).sent = [] ∧
        (t.Invoke params).result
          = .error ("failed to execute SQL: ".toList ++ "warehouse ID cannot be empty".toList) := by
  constructor
  · simp [Databricksexecutesql.Config.Initialize, hF, hFc, hFe]
  · refine ⟨Databrickssql.Tool.mk tcfg.Name Databrickssql.ToolKind tcfg.AuthRequired
      csT.DatabricksClient csT.GetHttpPath csT.GetCatalog csT.GetSchema tcfg.Statement, ?_, ?_⟩
    · simp [Databrickssql.Config.Initialize, hT, hTc]
    · intro params
      have e := ExecuteSQL_empty
        (Source.mk [] [] csT.DatabricksClient csT.GetHttpPath csT.GetCatalog csT.GetSchema)
        tcfg.Statement params hTe
      constructor
      · rw [templated_Invoke_sent]
        exact e.1
      · rw [templated_Invoke_result]
        simp only
        rw [e.2]

/-- Witness of C18 on a compatible source with an empty connection target. -/
theorem empty_warehouse_identifier_fails_at_different_times_witness :
    Databricksexecutesql.Config.Initialize plainQuote freeFormConfig
        (sourcesWith "my-databricks".toList (compatibleOn [] (answering select1Response)))
      = .error ("warehouse ID is empty for source ".toList ++ plainQuote freeFormConfig.Source) ∧
    ∃ t, Databrickssql.Config.Initialize plainQuote (templatedConfig "SELECT ?".toList)
        (sourcesWith "my-databricks".toList (compatibleOn [] (answering select1Response)))
        = .ok t ∧
      ∀ params, (t.Invoke params).sent = [] ∧
        (t.Invoke params).result
          = .error ("failed to execute SQL: ".toList ++ "warehouse ID cannot be empty".toList) :=
  empty_warehouse_identifier_fails_at_different_times plainQuote
    (sourcesWith "my-databricks".toList (compatibleOn [] (answering select1Response)))
    (templatedConfig "SELECT ?".toList) freeFormConfig
    (compatibleOn [] (answering select1Response)) (compatibleOn [] (answering select1Response))
    (CompatibleSource.mk (answering select1Response) [] [] [])
    (CompatibleSource.mk (answering select1Response) [] [] [])
    rfl rfl rfl rfl rfl rfl
